import Mathlib

/-!
Verification development for the warehouse-loading layer of the
Energy-Emissions lakehouse (src/30_load/load_to_postgres.py, with the
carbon-intensity ratio from src/20_gold/silver_to_gold.py).

The PostgreSQL state touched by the loader is embedded shallowly:

* a dimension table (dim_region, dim_energy_source, dim_sector) is a list of
  (surrogate id, natural-key string) rows plus the next SERIAL id;
* dim_time is a list of (time_id, year, month) rows plus the next id;
* each fact table is a list of records; its UNIQUE key-tuple constraint is
  reflected by well-formedness predicates and by the ON CONFLICT merge
  semantics below;
* pandas NaN / NA cells are modelled by Option (none = missing);
  float metrics are modelled by ℚ;
* every SQL statement of the loader becomes a pure function on this state;
  `engine.begin()` (commit on success, roll back on any exception) becomes
  the wrapper `mainLoad` (modelling `main`) that returns the prior state whenever the body errors.
-/

/- ------------------------------------------------------------------
Generic lemmas about the ON CONFLICT DO UPDATE merge semantics.
`key` projects the conflict-target columns, `over old new` overwrites the
non-key columns of `old` with those of `new`.  The two laws assumed of every
instance: overwriting never changes the key, and overwriting a row with an
equal-keyed row yields that row.
------------------------------------------------------------------ -/
set_option linter.unusedSectionVars false

set_option linter.unusedVariables false

/-- Lexicographic comparison of character lists by Unicode code point,
the order Python `sorted` uses on strings. -/
def strLeAux : List Char → List Char → Bool
  | [], _ => true
  | _ :: _, [] => false
  | a :: as, b :: bs =>
    if a.toNat < b.toNat then true
    else if b.toNat < a.toNat then false
    else strLeAux as bs

/-- Lexicographic comparison of strings by Unicode code point. -/
def strLe (a b : String) : Bool := strLeAux a.data b.data

/-- A dimension table such as dim_region: rows of (surrogate id, natural key)
plus the next SERIAL id to be assigned. -/
structure DimTable where
  rows : List (Nat × String)
  nextId : Nat
deriving DecidableEq

/-- The natural-key column of a dimension table. -/
def DimTable.names (t : DimTable) : List String := t.rows.map Prod.snd

/-- Append rows for the given fresh values, assigning consecutive SERIAL ids. -/
def dimInsertAll (t : DimTable) (vs : List String) : DimTable :=
  vs.foldl (fun acc v => ⟨acc.rows ++ [(acc.nextId, v)], acc.nextId + 1⟩) t

/-- Python `sorted(set(values))`: the distinct values in ascending order. -/
def sortedDistinct (vs : List String) : List String :=
  vs.dedup.insertionSort (fun a b => strLe a b = true)

/-- `upsert_dim_table` (load_to_postgres.py line 19): dedup and sort the
candidates, return unchanged on an empty candidate list, stage the values and
insert via the anti-join (LEFT JOIN ... WHERE existing name IS NULL: a staged
value is inserted only when no dimension row has an equal name), then drop the
staging table.  The staging table is transient and its net effect is nil, so it
is inlined here. -/
def upsert_dim_table (t : DimTable) (values : List String) : DimTable :=
  let values := sortedDistinct values
  if values = [] then t
  else dimInsertAll t (values.filter (fun v => ¬ v ∈ t.names))

/-- dim_time: rows of (time_id, year, month) plus the next SERIAL id. -/
structure TimeTable where
  rows : List (Nat × Nat × Nat)
  nextId : Nat
deriving DecidableEq

/-- The (year, month) pairs present in dim_time. -/
def TimeTable.pairs (t : TimeTable) : List (Nat × Nat) :=
  t.rows.map (fun r => (r.2.1, r.2.2))

/-- Append rows for the given fresh (year, month) pairs with consecutive ids. -/
def timeInsertAll (t : TimeTable) (ps : List (Nat × Nat)) : TimeTable :=
  ps.foldl (fun acc p => ⟨acc.rows ++ [(acc.nextId, p.1, p.2)], acc.nextId + 1⟩) t

/-- Helper for `distinctFirst`: drop elements already seen. -/
def distinctFirstAux (seen : List (Nat × Nat)) : List (Nat × Nat) → List (Nat × Nat)
  | [] => []
  | x :: xs =>
    if x ∈ seen then distinctFirstAux seen xs
    else x :: distinctFirstAux (x :: seen) xs

/-- pandas `drop_duplicates`: keep the first occurrence of each element. -/
def distinctFirst (l : List (Nat × Nat)) : List (Nat × Nat) :=
  distinctFirstAux [] l

/-- `upsert_dim_time` (line 40): return unchanged on an empty pair list,
drop duplicates, insert via the anti-join on (year, month), drop staging. -/
def upsert_dim_time (t : TimeTable) (year_month_pairs : List (Nat × Nat)) : TimeTable :=
  if year_month_pairs = [] then t
  else
    let df := distinctFirst year_month_pairs
    timeInsertAll t
      (df.filter (fun p => ¬ t.rows.any (fun r => r.2.1 = p.1 ∧ r.2.2 = p.2)))

/-- `fetch_dim_map` (line 59): the dict mapping natural key -> surrogate id,
as a partial lookup function. -/
def fetch_dim_map (t : DimTable) : String → Option Nat :=
  fun v => (t.rows.find? (fun r => r.2 = v)).map Prod.fst

/-- `fetch_time_map` (line 65): the dict mapping (year, month) -> time_id. -/
def fetch_time_map (t : TimeTable) : Nat × Nat → Option Nat :=
  fun p => (t.rows.find? (fun r => r.2.1 = p.1 ∧ r.2.2 = p.2)).map Prod.fst

/-- A row of the GOLD energy-monthly mart (silver_to_gold.py mart 1;
column contract of load_to_postgres.py).  Metric cells are Option ℚ:
none models a pandas NaN / NA cell. -/
structure EnergyMartRow where
  region : String
  energy_source : String
  year : Nat
  month : Nat
  avg_consumption_mwh : Option ℚ
  max_consumption_mwh : Option ℚ
  avg_temp_c : Option ℚ
  records : Option ℚ
deriving DecidableEq

/-- A row of the GOLD emissions-monthly mart (silver_to_gold.py mart 2). -/
structure EmissionsMartRow where
  region : String
  sector : String
  year : Nat
  month : Nat
  avg_co2_tonnes : Option ℚ
  total_co2_tonnes : Option ℚ
  records : Option ℚ
deriving DecidableEq

/-- A row of the GOLD carbon-intensity mart (silver_to_gold.py mart 3);
co2_per_mwh is none when the ratio is undefined. -/
structure IntensityMartRow where
  region : String
  year : Nat
  month : Nat
  total_energy_mwh : Option ℚ
  total_co2_tonnes : Option ℚ
  co2_per_mwh : Option ℚ
deriving DecidableEq

/-- The co2_per_mwh column of silver_to_gold.py lines 80-84: the divisor 0 is
first replaced by NA, and dividing by NA yields NA, so a zero total energy
gives an undefined ratio instead of a division error. -/
def carbonIntensityRatio (total_co2_tonnes total_energy_mwh : ℚ) : Option ℚ :=
  if total_energy_mwh = 0 then none else some (total_co2_tonnes / total_energy_mwh)

/-- The three GOLD marts read by `main` of load_to_postgres.py. -/
structure Marts where
  energy : List EnergyMartRow
  emissions : List EmissionsMartRow
  intensity : List IntensityMartRow
deriving DecidableEq

/-- A row of the energy_fact dataframe built in `main` (lines 152-161), before
the NULL guard: every cell may be missing, id cells exactly when the natural
key was absent from its mapping. -/
structure EnergyFactB where
  region_id : Option Nat
  source_id : Option Nat
  time_id : Option Nat
  avg_consumption_mwh : Option ℚ
  max_consumption_mwh : Option ℚ
  avg_temp_c : Option ℚ
  records : Option ℚ
deriving DecidableEq

/-- A row of the emissions_fact dataframe built in `main` (lines 163-171). -/
structure EmissionsFactB where
  region_id : Option Nat
  sector_id : Option Nat
  time_id : Option Nat
  avg_co2_tonnes : Option ℚ
  total_co2_tonnes : Option ℚ
  records : Option ℚ
deriving DecidableEq

/-- A row of the intensity_fact dataframe built in `main` (lines 173-180). -/
structure IntensityFactB where
  region_id : Option Nat
  time_id : Option Nat
  total_energy_mwh : Option ℚ
  total_co2_tonnes : Option ℚ
  co2_per_mwh : Option ℚ
deriving DecidableEq

/-- Build one energy fact row: each natural-key column is mapped through its
dictionary, each metric column passes through unchanged (lines 152-161). -/
def buildEnergyFact (region_map source_map : String → Option Nat)
    (time_map : Nat × Nat → Option Nat) (r : EnergyMartRow) : EnergyFactB where
  region_id := region_map r.region
  source_id := source_map r.energy_source
  time_id := time_map (r.year, r.month)
  avg_consumption_mwh := r.avg_consumption_mwh
  max_consumption_mwh := r.max_consumption_mwh
  avg_temp_c := r.avg_temp_c
  records := r.records

/-- Build one emissions fact row (lines 163-171). -/
def buildEmissionsFact (region_map sector_map : String → Option Nat)
    (time_map : Nat × Nat → Option Nat) (r : EmissionsMartRow) : EmissionsFactB where
  region_id := region_map r.region
  sector_id := sector_map r.sector
  time_id := time_map (r.year, r.month)
  avg_co2_tonnes := r.avg_co2_tonnes
  total_co2_tonnes := r.total_co2_tonnes
  records := r.records

/-- Build one intensity fact row (lines 173-180). -/
def buildIntensityFact (region_map : String → Option Nat)
    (time_map : Nat × Nat → Option Nat) (r : IntensityMartRow) : IntensityFactB where
  region_id := region_map r.region
  time_id := time_map (r.year, r.month)
  total_energy_mwh := r.total_energy_mwh
  total_co2_tonnes := r.total_co2_tonnes
  co2_per_mwh := r.co2_per_mwh

/-- `df.columns[df.isna().any()].tolist()` for the energy_fact dataframe:
the columns, in dataframe order, in which some row has a missing cell. -/
def energyBadCols (rows : List EnergyFactB) : List String :=
  (if rows.any (fun r => r.region_id = none) then ["region_id"] else []) ++
  (if rows.any (fun r => r.source_id = none) then ["source_id"] else []) ++
  (if rows.any (fun r => r.time_id = none) then ["time_id"] else []) ++
  (if rows.any (fun r => r.avg_consumption_mwh = none) then ["avg_consumption_mwh"] else []) ++
  (if rows.any (fun r => r.max_consumption_mwh = none) then ["max_consumption_mwh"] else []) ++
  (if rows.any (fun r => r.avg_temp_c = none) then ["avg_temp_c"] else []) ++
  (if rows.any (fun r => r.records = none) then ["records"] else [])

/-- The bad columns of the emissions_fact dataframe. -/
def emissionsBadCols (rows : List EmissionsFactB) : List String :=
  (if rows.any (fun r => r.region_id = none) then ["region_id"] else []) ++
  (if rows.any (fun r => r.sector_id = none) then ["sector_id"] else []) ++
  (if rows.any (fun r => r.time_id = none) then ["time_id"] else []) ++
  (if rows.any (fun r => r.avg_co2_tonnes = none) then ["avg_co2_tonnes"] else []) ++
  (if rows.any (fun r => r.total_co2_tonnes = none) then ["total_co2_tonnes"] else []) ++
  (if rows.any (fun r => r.records = none) then ["records"] else [])

/-- The bad columns of the intensity_fact dataframe. -/
def intensityBadCols (rows : List IntensityFactB) : List String :=
  (if rows.any (fun r => r.region_id = none) then ["region_id"] else []) ++
  (if rows.any (fun r => r.time_id = none) then ["time_id"] else []) ++
  (if rows.any (fun r => r.total_energy_mwh = none) then ["total_energy_mwh"] else []) ++
  (if rows.any (fun r => r.total_co2_tonnes = none) then ["total_co2_tonnes"] else []) ++
  (if rows.any (fun r => r.co2_per_mwh = none) then ["co2_per_mwh"] else [])

/-- A committed row of fact_energy_monthly.  The guard of `main` guarantees no
cell is missing before any fact upsert runs, so warehouse rows are fully
typed. -/
structure EnergyFact where
  region_id : Nat
  source_id : Nat
  time_id : Nat
  avg_consumption_mwh : ℚ
  max_consumption_mwh : ℚ
  avg_temp_c : ℚ
  records : ℚ
deriving DecidableEq

/-- A committed row of fact_emissions_monthly. -/
structure EmissionsFact where
  region_id : Nat
  sector_id : Nat
  time_id : Nat
  avg_co2_tonnes : ℚ
  total_co2_tonnes : ℚ
  records : ℚ
deriving DecidableEq

/-- A committed row of fact_carbon_intensity. -/
structure IntensityFact where
  region_id : Nat
  time_id : Nat
  total_energy_mwh : ℚ
  total_co2_tonnes : ℚ
  co2_per_mwh : ℚ
deriving DecidableEq

/-- Read a built energy row as a committed row, when no cell is missing. -/
def EnergyFactB.clean : EnergyFactB → Option EnergyFact
  | ⟨some a, some b, some c, some d, some e, some f, some g⟩ => some ⟨a, b, c, d, e, f, g⟩
  | _ => none

/-- Read a built emissions row as a committed row, when no cell is missing. -/
def EmissionsFactB.clean : EmissionsFactB → Option EmissionsFact
  | ⟨some a, some b, some c, some d, some e, some f⟩ => some ⟨a, b, c, d, e, f⟩
  | _ => none

/-- Read a built intensity row as a committed row, when no cell is missing. -/
def IntensityFactB.clean : IntensityFactB → Option IntensityFact
  | ⟨some a, some b, some c, some d, some e⟩ => some ⟨a, b, c, d, e⟩
  | _ => none

/-- The conflict target of fact_energy_monthly:
UNIQUE (region_id, source_id, time_id). -/
def energyKey (r : EnergyFact) : Nat × Nat × Nat := (r.region_id, r.source_id, r.time_id)

/-- The DO UPDATE SET list of `upsert_fact_energy`: overwrite every metric
column of the conflicting row with the EXCLUDED (incoming) values. -/
def energyOverwrite (old new : EnergyFact) : EnergyFact :=
  { old with
    avg_consumption_mwh := new.avg_consumption_mwh
    max_consumption_mwh := new.max_consumption_mwh
    avg_temp_c := new.avg_temp_c
    records := new.records }

/-- The conflict target of fact_emissions_monthly:
UNIQUE (region_id, sector_id, time_id). -/
def emissionsKey (r : EmissionsFact) : Nat × Nat × Nat := (r.region_id, r.sector_id, r.time_id)

/-- The DO UPDATE SET list of `upsert_fact_emissions`. -/
def emissionsOverwrite (old new : EmissionsFact) : EmissionsFact :=
  { old with
    avg_co2_tonnes := new.avg_co2_tonnes
    total_co2_tonnes := new.total_co2_tonnes
    records := new.records }

/-- The conflict target of fact_carbon_intensity: UNIQUE (region_id, time_id). -/
def intensityKey (r : IntensityFact) : Nat × Nat := (r.region_id, r.time_id)

/-- The DO UPDATE SET list of `upsert_fact_intensity`. -/
def intensityOverwrite (old new : IntensityFact) : IntensityFact :=
  { old with
    total_energy_mwh := new.total_energy_mwh
    total_co2_tonnes := new.total_co2_tonnes
    co2_per_mwh := new.co2_per_mwh }

/-- One source row of an INSERT ... ON CONFLICT (key) DO UPDATE statement:
when some target row carries the same key tuple, that row's non-key columns
are overwritten with the incoming values; otherwise the row is appended. -/
def mergeRow {ρ κ : Type} [DecidableEq κ] (key : ρ → κ) (over : ρ → ρ → ρ)
    (rows : List ρ) (x : ρ) : List ρ :=
  if rows.any (fun r => key r = key x) then
    rows.map (fun r => if key r = key x then over r x else r)
  else rows ++ [x]

/-- A whole INSERT ... SELECT ... ON CONFLICT DO UPDATE statement: the staged
rows are merged in order.  PostgreSQL refuses to update the same target row
twice within one statement ("ON CONFLICT DO UPDATE command cannot affect row a
second time"), which against a key-unique target happens exactly when two
staged rows share a key tuple, so that case is an error. -/
def mergeStmt {ρ κ : Type} [DecidableEq κ] (key : ρ → κ) (over : ρ → ρ → ρ)
    (table : String) (rows incoming : List ρ) : Except String (List ρ) :=
  if (incoming.map key).Nodup then .ok (incoming.foldl (mergeRow key over) rows)
  else .error table

/-- The errors `main` can raise: the ValueError of the NULL guard (naming the
offending dataframe and its bad columns, line 187), or a storage-engine
conflict error from a merge statement (naming the fact table). -/
inductive LoadError where
  | nullsError (table : String) (badCols : List String)
  | conflictError (table : String)
deriving DecidableEq

/-- The warehouse state touched by the loader: the four dimension tables, the
three fact tables, and the transient staging tables of the fact upserts
(none = the staging table does not exist). -/
structure DBState where
  dim_region : DimTable
  dim_energy_source : DimTable
  dim_sector : DimTable
  dim_time : TimeTable
  fact_energy : List EnergyFact
  fact_emissions : List EmissionsFact
  fact_intensity : List IntensityFact
  stg_fact_energy : Option (List EnergyFact)
  stg_fact_emissions : Option (List EmissionsFact)
  stg_fact_intensity : Option (List IntensityFact)
deriving DecidableEq

/-- `upsert_fact_energy` (line 71): stage the dataframe into stg_fact_energy
(to_sql replace), run the single ON CONFLICT merge statement, then drop the
staging table. -/
def upsert_fact_energy (s : DBState) (df : List EnergyFact) : Except LoadError DBState :=
  let s1 := { s with stg_fact_energy := some df }
  match mergeStmt energyKey energyOverwrite "fact_energy_monthly" s1.fact_energy df with
  | .error t => .error (.conflictError t)
  | .ok merged => .ok { s1 with fact_energy := merged, stg_fact_energy := none }

/-- `upsert_fact_emissions` (line 88). -/
def upsert_fact_emissions (s : DBState) (df : List EmissionsFact) : Except LoadError DBState :=
  let s1 := { s with stg_fact_emissions := some df }
  match mergeStmt emissionsKey emissionsOverwrite "fact_emissions_monthly" s1.fact_emissions df with
  | .error t => .error (.conflictError t)
  | .ok merged => .ok { s1 with fact_emissions := merged, stg_fact_emissions := none }

/-- `upsert_fact_intensity` (line 104). -/
def upsert_fact_intensity (s : DBState) (df : List IntensityFact) : Except LoadError DBState :=
  let s1 := { s with stg_fact_intensity := some df }
  match mergeStmt intensityKey intensityOverwrite "fact_carbon_intensity" s1.fact_intensity df with
  | .error t => .error (.conflictError t)
  | .ok merged => .ok { s1 with fact_intensity := merged, stg_fact_intensity := none }

/-- Steps 1-2 of `main` (lines 130-141): register the region, energy-source and
sector values of the marts, then the union of the (year, month) pairs of all
three marts, into their dimension tables.  Python's `set(...)` union is
iterated in an unspecified order; it is modelled as first-occurrence
deduplication of the concatenation (`upsert_dim_time` deduplicates again,
harmlessly). -/
def registerDims (m : Marts) (s : DBState) : DBState :=
  let s1 := { s with dim_region := upsert_dim_table s.dim_region (m.energy.map (fun r : EnergyMartRow => r.region)) }
  let src := upsert_dim_table s1.dim_energy_source (m.energy.map (fun r : EnergyMartRow => r.energy_source))
  let s2 := { s1 with dim_energy_source := src }
  let s3 := { s2 with dim_sector := upsert_dim_table s2.dim_sector (m.emissions.map (fun r : EmissionsMartRow => r.sector)) }
  let ym := distinctFirst
    (m.energy.map (fun r => (r.year, r.month)) ++
     m.emissions.map (fun r => (r.year, r.month)) ++
     m.intensity.map (fun r => (r.year, r.month)))
  { s3 with dim_time := upsert_dim_time s3.dim_time ym }

/-- Step 4 of `main` (lines 150-180): build the three fact dataframes from the
marts using the mappings fetched from the dimension tables of `s`. -/
def builtEnergy (m : Marts) (s : DBState) : List EnergyFactB :=
  m.energy.map (buildEnergyFact (fetch_dim_map s.dim_region)
    (fetch_dim_map s.dim_energy_source) (fetch_time_map s.dim_time))

/-- The built emissions_fact dataframe. -/
def builtEmissions (m : Marts) (s : DBState) : List EmissionsFactB :=
  m.emissions.map (buildEmissionsFact (fetch_dim_map s.dim_region)
    (fetch_dim_map s.dim_sector) (fetch_time_map s.dim_time))

/-- The built intensity_fact dataframe. -/
def builtIntensity (m : Marts) (s : DBState) : List IntensityFactB :=
  m.intensity.map (buildIntensityFact (fetch_dim_map s.dim_region)
    (fetch_time_map s.dim_time))

/-- Step 5 of `main` (lines 182-187): check the three built dataframes in
order and raise on the first one containing a missing cell, naming it and its
bad columns. -/
def nullGuard (m : Marts) (s : DBState) : Option LoadError :=
  if energyBadCols (builtEnergy m s) ≠ [] then
    some (.nullsError "energy_fact" (energyBadCols (builtEnergy m s)))
  else if emissionsBadCols (builtEmissions m s) ≠ [] then
    some (.nullsError "emissions_fact" (emissionsBadCols (builtEmissions m s)))
  else if intensityBadCols (builtIntensity m s) ≠ [] then
    some (.nullsError "intensity_fact" (intensityBadCols (builtIntensity m s)))
  else none

/-- The energy_fact dataframe as committed rows (cells all present). -/
def cleanEnergyRows (m : Marts) (s : DBState) : List EnergyFact :=
  (builtEnergy m s).filterMap EnergyFactB.clean

/-- The emissions_fact dataframe as committed rows. -/
def cleanEmissionsRows (m : Marts) (s : DBState) : List EmissionsFact :=
  (builtEmissions m s).filterMap EmissionsFactB.clean

/-- The intensity_fact dataframe as committed rows. -/
def cleanIntensityRows (m : Marts) (s : DBState) : List IntensityFact :=
  (builtIntensity m s).filterMap IntensityFactB.clean

/-- Step 6 of `main` (lines 189-193), continued: the built dataframes are
written through `to_sql`, which (after the guard passed) transfers exactly
their rows; the committed-row reading `clean` reflects that every cell is
present at this point. -/
def mergePhase (m : Marts) (s : DBState) : Except LoadError DBState := do
  let s1 ← upsert_fact_energy s (cleanEnergyRows m s)
  let s2 ← upsert_fact_emissions s1 (cleanEmissionsRows m s)
  upsert_fact_intensity s2 (cleanIntensityRows m s)

/-- The body of the `with engine.begin()` block of `main` (lines 128-193):
dimension registration, fact building, the NULL guard, then the fact merges;
any error propagates. -/
def loadSteps (m : Marts) (s : DBState) : Except LoadError DBState :=
  let s1 := registerDims m s
  match nullGuard m s1 with
  | some e => .error e
  | none => mergePhase m s1

/-- `main` (line 120): the body runs inside `with engine.begin() as conn`,
the storage engine's atomic transaction: on normal completion everything
commits, on any raised error the warehouse is rolled back to its prior
committed state and the error propagates. -/
def mainLoad (m : Marts) (s : DBState) : DBState × Option LoadError :=
  match loadSteps m s with
  | .ok s1 => (s1, none)
  | .error e => (s, some e)

/-- The warehouse state produced by a successful merge phase: each fact table
is the ON CONFLICT merge of its cleaned dataframe, all staging tables gone. -/
def mergedState (m : Marts) (s : DBState) : DBState :=
  { s with
    fact_energy :=
      (cleanEnergyRows m s).foldl (mergeRow energyKey energyOverwrite) s.fact_energy
    fact_emissions :=
      (cleanEmissionsRows m s).foldl (mergeRow emissionsKey emissionsOverwrite) s.fact_emissions
    fact_intensity :=
      (cleanIntensityRows m s).foldl (mergeRow intensityKey intensityOverwrite) s.fact_intensity
    stg_fact_energy := none
    stg_fact_emissions := none
    stg_fact_intensity := none }

/-- The declared UNIQUE key constraints of the three fact tables. -/
def DBState.factsWf (s : DBState) : Prop :=
  (s.fact_energy.map energyKey).Nodup ∧
  (s.fact_emissions.map emissionsKey).Nodup ∧
  (s.fact_intensity.map intensityKey).Nodup

instance (s : DBState) : Decidable s.factsWf :=
  inferInstanceAs (Decidable (_ ∧ _ ∧ _))

/-- An empty warehouse: empty dimension and fact tables, no staging. -/
def dbEmpty : DBState :=
  ⟨⟨[], 1⟩, ⟨[], 1⟩, ⟨[], 1⟩, ⟨[], 1⟩, [], [], [], none, none, none⟩

/-- A concrete energy-mart row. -/
def eRowN : EnergyMartRow := ⟨"North", "Gas", 2024, 1, some 10, some 20, some 5, some 3⟩

/-- A concrete emissions-mart row. -/
def mRowN : EmissionsMartRow := ⟨"North", "Industry", 2024, 1, some 2, some 6, some 3⟩

/-- A concrete carbon-intensity mart row with a defined ratio. -/
def iRowN : IntensityMartRow := ⟨"North", 2024, 1, some 10, some 120, some 12⟩

/-- The spec's example row: total_energy_mwh = 0, so the gold layer computes
co2_per_mwh as the undefined sentinel. -/
def iRowZero : IntensityMartRow := ⟨"North", 2024, 1, some 0, some 120, carbonIntensityRatio 120 0⟩

/-- A well-formed concrete mart triple. -/
def martsA : Marts := ⟨[eRowN], [mRowN], [iRowN]⟩

/-- Marts whose only flaw is the zero-energy intensity row. -/
def martsZero : Marts := ⟨[eRowN], [], [iRowZero]⟩

/-- Marts whose intensity row references a region never registered (regions
are registered from the energy mart only, which is empty here). -/
def martsBad : Marts := ⟨[], [], [iRowN]⟩

theorem strLeAux_refl : ∀ as, strLeAux as as = true := by
  intro as
  induction as with
  | nil => rfl
  | cons a as ih => simp [strLeAux, ih]

theorem strLeAux_total : ∀ as bs, strLeAux as bs = true ∨ strLeAux bs as = true := by
  intro as
  induction as with
  | nil => intro bs; left; rfl
  | cons a as ih =>
    intro bs
    cases bs with
    | nil => right; rfl
    | cons b bs =>
      simp only [strLeAux]
      rcases Nat.lt_trichotomy a.toNat b.toNat with h | h | h
      · left; simp [h]
      · simp [h, Nat.lt_irrefl]
        exact ih bs
      · right; simp [h]

theorem strLeAux_trans :
    ∀ as bs cs, strLeAux as bs = true → strLeAux bs cs = true → strLeAux as cs = true := by
  intro as
  induction as with
  | nil => intro bs cs _ _; rfl
  | cons a as ih =>
    intro bs cs hab hbc
    cases bs with
    | nil => simp [strLeAux] at hab
    | cons b bs =>
      cases cs with
      | nil => simp [strLeAux] at hbc
      | cons c cs =>
        simp only [strLeAux] at hab hbc ⊢
        split at hab
        · next hlt =>
          split at hbc
          · next hlt2 => simp [Nat.lt_trans hlt hlt2]
          · next hge2 =>
            split at hbc
            · exact absurd hbc (by simp)
            · next heq2 =>
              have : b.toNat = c.toNat := Nat.le_antisymm (Nat.le_of_not_lt heq2) (Nat.le_of_not_lt hge2)
              simp [this ▸ hlt]
        · next hge =>
          split at hab
          · exact absurd hab (by simp)
          · next heq =>
            have hab' : a.toNat = b.toNat :=
              Nat.le_antisymm (Nat.le_of_not_lt heq) (Nat.le_of_not_lt hge)
            split at hbc
            · next hlt2 => simp [hab' ▸ hlt2]
            · next hge2 =>
              split at hbc
              · exact absurd hbc (by simp)
              · next heq2 =>
                have hbc' : b.toNat = c.toNat :=
                  Nat.le_antisymm (Nat.le_of_not_lt heq2) (Nat.le_of_not_lt hge2)
                have hac : a.toNat = c.toNat := hab'.trans hbc'
                simp [hac, Nat.lt_irrefl]
                exact ih bs cs hab hbc

theorem strLeAux_antisymm :
    ∀ as bs, strLeAux as bs = true → strLeAux bs as = true → as = bs := by
  intro as
  induction as with
  | nil =>
    intro bs _ hba
    cases bs with
    | nil => rfl
    | cons b bs => simp [strLeAux] at hba
  | cons a as ih =>
    intro bs hab hba
    cases bs with
    | nil => simp [strLeAux] at hab
    | cons b bs =>
      simp only [strLeAux] at hab hba
      rcases Nat.lt_trichotomy a.toNat b.toNat with h | h | h
      · simp [h, Nat.lt_asymm h] at hba
      · have hchar : a = b := Char.ext (UInt32.ext h)
        have hn : ¬ a.toNat < b.toNat := by omega
        have hn2 : ¬ b.toNat < a.toNat := by omega
        rw [if_neg hn, if_neg hn2] at hab
        rw [if_neg hn2, if_neg hn] at hba
        rw [hchar, ih bs hab hba]
      · simp [h, Nat.lt_asymm h] at hab

theorem strLe_refl (a : String) : strLe a a = true := strLeAux_refl a.data

theorem strLe_total (a b : String) : strLe a b = true ∨ strLe b a = true :=
  strLeAux_total a.data b.data

theorem strLe_trans (a b c : String) :
    strLe a b = true → strLe b c = true → strLe a c = true :=
  strLeAux_trans a.data b.data c.data

theorem strLe_antisymm (a b : String) :
    strLe a b = true → strLe b a = true → a = b := by
  intro hab hba
  have h := strLeAux_antisymm a.data b.data hab hba
  cases a; cases b; exact congrArg String.mk h

/- ------------------------------------------------------------------
Basic lemmas about the dimension-registration building blocks.
------------------------------------------------------------------ -/
theorem mem_sortedDistinct {vs : List String} {v : String} :
    v ∈ sortedDistinct vs ↔ v ∈ vs := by
  unfold sortedDistinct
  rw [(List.perm_insertionSort _ _).mem_iff, List.mem_dedup]

theorem sortedDistinct_nodup (vs : List String) : (sortedDistinct vs).Nodup :=
  (List.perm_insertionSort _ _).nodup_iff.mpr vs.nodup_dedup

theorem sortedDistinct_sorted (vs : List String) :
    (sortedDistinct vs).Sorted (fun a b => strLe a b = true) := by
  haveI : IsTotal String (fun a b => strLe a b = true) := ⟨strLe_total⟩
  haveI : IsTrans String (fun a b => strLe a b = true) := ⟨strLe_trans⟩
  exact List.sorted_insertionSort _ _

theorem sortedDistinct_eq_of_toFinset {vs ws : List String}
    (h : vs.toFinset = ws.toFinset) : sortedDistinct vs = sortedDistinct ws := by
  haveI : IsAntisymm String (fun a b => strLe a b = true) := ⟨strLe_antisymm⟩
  apply List.eq_of_perm_of_sorted _ (sortedDistinct_sorted vs) (sortedDistinct_sorted ws)
  apply (List.perm_insertionSort _ _).trans
  apply List.Perm.trans _ (List.perm_insertionSort _ _).symm
  apply List.Perm.symm
  apply List.perm_of_nodup_nodup_toFinset_eq ws.nodup_dedup vs.nodup_dedup
  have hm : ∀ a : String, a ∈ vs ↔ a ∈ ws := by
    intro a
    rw [← List.mem_toFinset, ← List.mem_toFinset, h]
  ext a
  simp only [List.mem_toFinset, List.mem_dedup]
  exact (hm a).symm

theorem dimInsertAll_rows :
    ∀ (vs : List String) (t : DimTable),
      ∃ l, (dimInsertAll t vs).rows = t.rows ++ l ∧ l.map Prod.snd = vs := by
  intro vs
  induction vs with
  | nil => intro t; exact ⟨[], by simp [dimInsertAll], rfl⟩
  | cons v vs ih =>
    intro t
    obtain ⟨l, hl, hsnd⟩ := ih ⟨t.rows ++ [(t.nextId, v)], t.nextId + 1⟩
    refine ⟨(t.nextId, v) :: l, ?_, by simp [hsnd]⟩
    simpa [dimInsertAll] using hl

theorem dimInsertAll_nil (t : DimTable) : dimInsertAll t [] = t := rfl

theorem upsert_dim_table_rows (t : DimTable) (vs : List String) :
    ∃ l, (upsert_dim_table t vs).rows = t.rows ++ l ∧
      l.map Prod.snd = (sortedDistinct vs).filter (fun v => ¬ v ∈ t.names) := by
  unfold upsert_dim_table
  by_cases h : sortedDistinct vs = []
  · exact ⟨[], by simp [h], by simp [h]⟩
  · simp only [h, if_neg, if_false]
    exact dimInsertAll_rows _ t

theorem upsert_dim_table_names (t : DimTable) (vs : List String) :
    (upsert_dim_table t vs).names =
      t.names ++ (sortedDistinct vs).filter (fun v => ¬ v ∈ t.names) := by
  obtain ⟨l, hl, hsnd⟩ := upsert_dim_table_rows t vs
  unfold DimTable.names
  rw [hl, List.map_append, hsnd]
  rfl

theorem mem_names_upsert_dim_table {t : DimTable} {vs : List String} {v : String}
    (h : v ∈ vs) : v ∈ (upsert_dim_table t vs).names := by
  rw [upsert_dim_table_names, List.mem_append]
  by_cases hn : v ∈ t.names
  · exact Or.inl hn
  · right
    rw [List.mem_filter]
    exact ⟨mem_sortedDistinct.mpr h, by simpa using hn⟩

theorem upsert_dim_table_noop {t : DimTable} {vs : List String}
    (h : ∀ v ∈ vs, v ∈ t.names) : upsert_dim_table t vs = t := by
  unfold upsert_dim_table
  by_cases he : sortedDistinct vs = []
  · simp [he]
  · simp only [he, if_neg, if_false]
    have : (sortedDistinct vs).filter (fun v => ¬ v ∈ t.names) = [] := by
      rw [List.filter_eq_nil_iff]
      intro v hv
      simpa using h v (mem_sortedDistinct.mp hv)
    rw [this, dimInsertAll_nil]

theorem mem_distinctFirstAux :
    ∀ (l : List (Nat × Nat)) (seen : List (Nat × Nat)) (p : Nat × Nat),
      p ∈ distinctFirstAux seen l ↔ p ∈ l ∧ p ∉ seen := by
  intro l
  induction l with
  | nil => intro seen p; simp [distinctFirstAux]
  | cons x xs ih =>
    intro seen p
    by_cases hx : x ∈ seen
    · rw [distinctFirstAux, if_pos hx, ih]
      constructor
      · rintro ⟨hp, hps⟩
        exact ⟨List.mem_cons_of_mem _ hp, hps⟩
      · rintro ⟨hp, hps⟩
        rcases List.mem_cons.mp hp with rfl | hp
        · exact absurd hx hps
        · exact ⟨hp, hps⟩
    · rw [distinctFirstAux, if_neg hx]
      rw [List.mem_cons, ih]
      constructor
      · rintro (rfl | ⟨hp, hps⟩)
        · exact ⟨List.mem_cons_self _ _, hx⟩
        · refine ⟨List.mem_cons_of_mem _ hp, ?_⟩
          intro hc
          exact hps (List.mem_cons_of_mem _ hc)
      · rintro ⟨hp, hps⟩
        by_cases hpx : p = x
        · exact Or.inl hpx
        · right
          refine ⟨(List.mem_cons.mp hp).resolve_left hpx, ?_⟩
          intro hc
          rcases List.mem_cons.mp hc with h2 | h2
          · exact hpx h2
          · exact hps h2

theorem mem_distinctFirst {l : List (Nat × Nat)} {p : Nat × Nat} :
    p ∈ distinctFirst l ↔ p ∈ l := by
  rw [distinctFirst, mem_distinctFirstAux]
  simp

theorem timeInsertAll_rows :
    ∀ (ps : List (Nat × Nat)) (t : TimeTable),
      ∃ l, (timeInsertAll t ps).rows = t.rows ++ l ∧
        l.map (fun r => (r.2.1, r.2.2)) = ps := by
  intro ps
  induction ps with
  | nil => intro t; exact ⟨[], by simp [timeInsertAll], rfl⟩
  | cons p ps ih =>
    intro t
    obtain ⟨l, hl, hsnd⟩ := ih ⟨t.rows ++ [(t.nextId, p.1, p.2)], t.nextId + 1⟩
    refine ⟨(t.nextId, p.1, p.2) :: l, ?_, by simp [hsnd]⟩
    simpa [timeInsertAll] using hl

theorem timeInsertAll_nil (t : TimeTable) : timeInsertAll t [] = t := rfl

theorem upsert_dim_time_rows (t : TimeTable) (ps : List (Nat × Nat)) :
    ∃ l, (upsert_dim_time t ps).rows = t.rows ++ l ∧
      l.map (fun r => (r.2.1, r.2.2)) =
        (distinctFirst ps).filter
          (fun p => ¬ t.rows.any (fun r => r.2.1 = p.1 ∧ r.2.2 = p.2)) := by
  unfold upsert_dim_time
  by_cases h : ps = []
  · subst h
    exact ⟨[], by simp, by simp [distinctFirst, distinctFirstAux]⟩
  · simp only [h, if_neg, if_false]
    exact timeInsertAll_rows _ t

theorem mem_pairs_upsert_dim_time {t : TimeTable} {ps : List (Nat × Nat)} {p : Nat × Nat}
    (h : p ∈ ps) : p ∈ (upsert_dim_time t ps).pairs := by
  obtain ⟨l, hl, hsnd⟩ := upsert_dim_time_rows t ps
  unfold TimeTable.pairs
  rw [hl, List.map_append, List.mem_append, hsnd]
  by_cases hex : t.rows.any (fun r => r.2.1 = p.1 ∧ r.2.2 = p.2)
  · left
    rw [List.any_eq_true] at hex
    obtain ⟨r, hr, hpr⟩ := hex
    simp only [decide_eq_true_eq] at hpr
    refine List.mem_map.mpr ⟨r, hr, ?_⟩
    obtain ⟨h1, h2⟩ := hpr
    cases p
    simp [h1, h2]
  · right
    rw [List.mem_filter]
    refine ⟨mem_distinctFirst.mpr h, ?_⟩
    simp only [decide_eq_true_eq]
    exact hex

theorem upsert_dim_time_noop {t : TimeTable} {ps : List (Nat × Nat)}
    (h : ∀ p ∈ ps, p ∈ t.pairs) : upsert_dim_time t ps = t := by
  unfold upsert_dim_time
  by_cases he : ps = []
  · simp [he]
  · simp only [he, if_neg, if_false]
    have : (distinctFirst ps).filter
        (fun p => ¬ t.rows.any (fun r => r.2.1 = p.1 ∧ r.2.2 = p.2)) = [] := by
      rw [List.filter_eq_nil_iff]
      intro p hp
      have hmem := h p (mem_distinctFirst.mp hp)
      unfold TimeTable.pairs at hmem
      rw [List.mem_map] at hmem
      obtain ⟨r, hr, hrp⟩ := hmem
      simp only [decide_eq_true_eq, not_not]
      rw [List.any_eq_true]
      refine ⟨r, hr, ?_⟩
      simp only [decide_eq_true_eq]
      cases p
      simp only [Prod.mk.injEq] at hrp
      exact ⟨hrp.1, hrp.2⟩
    rw [this, timeInsertAll_nil]

theorem fetch_dim_map_isSome {t : DimTable} {v : String} (h : v ∈ t.names) :
    (fetch_dim_map t v).isSome := by
  unfold fetch_dim_map
  rw [Option.isSome_map']
  unfold DimTable.names at h
  rw [List.mem_map] at h
  obtain ⟨r, hr, hrv⟩ := h
  exact List.find?_isSome.mpr ⟨r, hr, by simp [hrv]⟩

theorem fetch_time_map_isSome {t : TimeTable} {p : Nat × Nat} (h : p ∈ t.pairs) :
    (fetch_time_map t p).isSome := by
  unfold fetch_time_map
  rw [Option.isSome_map']
  unfold TimeTable.pairs at h
  rw [List.mem_map] at h
  obtain ⟨r, hr, hrp⟩ := h
  refine List.find?_isSome.mpr ⟨r, hr, ?_⟩
  cases p
  simp only [Prod.mk.injEq] at hrp
  simp [hrp.1, hrp.2]

section MergeLemmas

variable {ρ κ : Type} [DecidableEq ρ] [DecidableEq κ]

variable (key : ρ → κ) (over : ρ → ρ → ρ)

theorem any_key_iff (rows : List ρ) (x : ρ) :
    (rows.any (fun r => key r = key x)) = true ↔ key x ∈ rows.map key := by
  rw [List.any_eq_true, List.mem_map]
  constructor
  · rintro ⟨r, hr, hk⟩
    exact ⟨r, hr, by simpa using hk⟩
  · rintro ⟨r, hr, hk⟩
    exact ⟨r, hr, by simpa using hk⟩

theorem mergeRow_of_absent {rows : List ρ} {x : ρ} (h : key x ∉ rows.map key) :
    mergeRow key over rows x = rows ++ [x] := by
  unfold mergeRow
  rw [if_neg]
  intro hc
  exact h ((any_key_iff key rows x).mp hc)

theorem mergeRow_of_present {rows : List ρ} {x : ρ} (h : key x ∈ rows.map key) :
    mergeRow key over rows x =
      rows.map (fun r => if key r = key x then over r x else r) := by
  unfold mergeRow
  rw [if_pos ((any_key_iff key rows x).mpr h)]

theorem mergeRow_keys (hk : ∀ r x, key (over r x) = key r) (rows : List ρ) (x : ρ) :
    (mergeRow key over rows x).map key =
      if key x ∈ rows.map key then rows.map key else rows.map key ++ [key x] := by
  by_cases h : key x ∈ rows.map key
  · rw [mergeRow_of_present key over h, if_pos h, List.map_map]
    apply List.map_congr_left
    intro r _
    by_cases hr : key r = key x
    · simp [hr, hk]
    · simp [hr]
  · rw [mergeRow_of_absent key over h, if_neg h]
    simp

theorem mergeRow_keys_nodup (hk : ∀ r x, key (over r x) = key r)
    {rows : List ρ} (x : ρ) (h : (rows.map key).Nodup) :
    ((mergeRow key over rows x).map key).Nodup := by
  rw [mergeRow_keys key over hk]
  by_cases hm : key x ∈ rows.map key
  · rwa [if_pos hm]
  · rw [if_neg hm]
    rw [List.nodup_append]
    refine ⟨h, List.nodup_singleton _, ?_⟩
    intro a ha hc
    rw [List.mem_singleton] at hc
    exact hm (hc ▸ ha)

theorem mergeRow_mem_self (ho : ∀ r x, key r = key x → over r x = x)
    (rows : List ρ) (x : ρ) : x ∈ mergeRow key over rows x := by
  by_cases h : key x ∈ rows.map key
  · rw [mergeRow_of_present key over h]
    rw [List.mem_map] at h ⊢
    obtain ⟨r, hr, hkr⟩ := h
    exact ⟨r, hr, by rw [if_pos hkr, ho r x hkr]⟩
  · rw [mergeRow_of_absent key over h]
    simp

theorem mergeRow_mem_of_ne {rows : List ρ} {x y : ρ} (hy : y ∈ rows)
    (hne : key y ≠ key x) : y ∈ mergeRow key over rows x := by
  by_cases h : key x ∈ rows.map key
  · rw [mergeRow_of_present key over h, List.mem_map]
    exact ⟨y, hy, by rw [if_neg hne]⟩
  · rw [mergeRow_of_absent key over h]
    exact List.mem_append_left _ hy

theorem mem_mergeRow_iff_of_ne (hk : ∀ r x, key (over r x) = key r)
    {rows : List ρ} {x y : ρ} (hne : key y ≠ key x) :
    y ∈ mergeRow key over rows x ↔ y ∈ rows := by
  constructor
  · intro hy
    by_cases h : key x ∈ rows.map key
    · rw [mergeRow_of_present key over h, List.mem_map] at hy
      obtain ⟨r, hr, hry⟩ := hy
      by_cases hrx : key r = key x
      · rw [if_pos hrx] at hry
        exfalso
        apply hne
        rw [← hry, hk r x, hrx]
      · rw [if_neg hrx] at hry
        rw [← hry]
        exact hr
    · rw [mergeRow_of_absent key over h, List.mem_append] at hy
      rcases hy with hy | hy
      · exact hy
      · rw [List.mem_singleton] at hy
        exact absurd (congrArg key hy) hne
  · intro hy
    exact mergeRow_mem_of_ne key over hy hne

theorem mergeRow_eq_of_mem (ho : ∀ r x, key r = key x → over r x = x)
    {rows : List ρ} {x : ρ} (hnd : (rows.map key).Nodup) (hx : x ∈ rows) :
    mergeRow key over rows x = rows := by
  have hkx : key x ∈ rows.map key := List.mem_map_of_mem key hx
  rw [mergeRow_of_present key over hkx]
  have heq : rows.map (fun r => if key r = key x then over r x else r) = rows.map id := by
    apply List.map_congr_left
    intro r hr
    by_cases hrx : key r = key x
    · have hrx2 : r = x := List.inj_on_of_nodup_map hnd hr hx hrx
      rw [if_pos hrx, hrx2, ho x x rfl]
      rfl
    · rw [if_neg hrx]
      rfl
  rw [heq, List.map_id]

theorem foldMerge_keys_nodup (hk : ∀ r x, key (over r x) = key r) :
    ∀ (inc rows : List ρ), (rows.map key).Nodup →
      ((inc.foldl (mergeRow key over) rows).map key).Nodup := by
  intro inc
  induction inc with
  | nil => intro rows h; exact h
  | cons z inc ih =>
    intro rows h
    rw [List.foldl_cons]
    exact ih _ (mergeRow_keys_nodup key over hk z h)

theorem foldMerge_mem_preserved :
    ∀ (inc rows : List ρ) (y : ρ), y ∈ rows → (∀ z ∈ inc, key z ≠ key y) →
      y ∈ inc.foldl (mergeRow key over) rows := by
  intro inc
  induction inc with
  | nil => intro rows y hy _; exact hy
  | cons z inc ih =>
    intro rows y hy hne
    rw [List.foldl_cons]
    refine ih _ y ?_ (fun w hw => hne w (List.mem_cons_of_mem _ hw))
    refine mergeRow_mem_of_ne key over hy ?_
    exact (hne z (List.mem_cons_self _ _)).symm

theorem foldMerge_mem (ho : ∀ r x, key r = key x → over r x = x) :
    ∀ (inc rows : List ρ), (inc.map key).Nodup →
      ∀ x ∈ inc, x ∈ inc.foldl (mergeRow key over) rows := by
  intro inc
  induction inc with
  | nil => intro rows _ x hx; exact absurd hx (List.not_mem_nil x)
  | cons z inc ih =>
    intro rows hnd x hx
    rw [List.foldl_cons]
    rw [List.map_cons, List.nodup_cons] at hnd
    rcases List.mem_cons.mp hx with rfl | hx
    · refine foldMerge_mem_preserved key over inc _ x (mergeRow_mem_self key over ho rows x) ?_
      intro w hw hc
      exact hnd.1 (hc ▸ List.mem_map_of_mem key hw)
    · exact ih _ hnd.2 x hx

theorem foldMerge_eq_of_all_mem (ho : ∀ r x, key r = key x → over r x = x) :
    ∀ (inc rows : List ρ), (rows.map key).Nodup → (∀ x ∈ inc, x ∈ rows) →
      inc.foldl (mergeRow key over) rows = rows := by
  intro inc
  induction inc with
  | nil => intro rows _ _; rfl
  | cons z inc ih =>
    intro rows hnd hmem
    rw [List.foldl_cons, mergeRow_eq_of_mem key over ho hnd (hmem z (List.mem_cons_self _ _))]
    exact ih rows hnd (fun x hx => hmem x (List.mem_cons_of_mem _ hx))

theorem foldMerge_mem_iff_of_not_key (hk : ∀ r x, key (over r x) = key r) :
    ∀ (inc rows : List ρ) (y : ρ), key y ∉ inc.map key →
      (y ∈ inc.foldl (mergeRow key over) rows ↔ y ∈ rows) := by
  intro inc
  induction inc with
  | nil => intro rows y _; rfl
  | cons z inc ih =>
    intro rows y hy
    rw [List.map_cons, List.mem_cons] at hy
    push_neg at hy
    rw [List.foldl_cons, ih _ y hy.2,
      mem_mergeRow_iff_of_ne key over hk (fun hc => hy.1 hc)]

theorem mergeStmt_ok_iff {table : String} {rows inc out : List ρ} :
    mergeStmt key over table rows inc = .ok out ↔
      (inc.map key).Nodup ∧ out = inc.foldl (mergeRow key over) rows := by
  unfold mergeStmt
  by_cases h : (inc.map key).Nodup
  · rw [if_pos h]
    constructor
    · intro he
      exact ⟨h, (Except.ok.inj he).symm⟩
    · rintro ⟨_, rfl⟩
      rfl
  · rw [if_neg h]
    constructor
    · intro he
      exact absurd he (by simp)
    · rintro ⟨hc, _⟩
      exact absurd hc h

theorem mergeStmt_error_iff {table : String} {rows inc : List ρ} {t : String} :
    mergeStmt key over table rows inc = .error t ↔
      ¬ (inc.map key).Nodup ∧ t = table := by
  unfold mergeStmt
  by_cases h : (inc.map key).Nodup
  · rw [if_pos h]
    constructor
    · intro he
      exact absurd he (by simp)
    · rintro ⟨hc, _⟩
      exact absurd h hc
  · rw [if_neg h]
    constructor
    · intro he
      exact ⟨h, (Except.error.inj he).symm⟩
    · rintro ⟨_, rfl⟩
      rfl

end MergeLemmas

/- ------------------------------------------------------------------
The merge laws hold for each of the three fact tables: overwriting never
touches the key columns, and overwriting a row with an equal-keyed row
yields exactly that row (every non-key column is in the SET list).
------------------------------------------------------------------ -/
theorem energyOverwrite_key (r x : EnergyFact) :
    energyKey (energyOverwrite r x) = energyKey r := rfl

theorem energyOverwrite_of_key_eq :
    ∀ {r x : EnergyFact}, energyKey r = energyKey x → energyOverwrite r x = x := by
  intro r x h
  cases r; cases x
  simp only [energyKey, Prod.mk.injEq] at h
  simp only [energyOverwrite]
  obtain ⟨h1, h2, h3⟩ := h
  simp [h1, h2, h3]

theorem emissionsOverwrite_key (r x : EmissionsFact) :
    emissionsKey (emissionsOverwrite r x) = emissionsKey r := rfl

theorem emissionsOverwrite_of_key_eq :
    ∀ {r x : EmissionsFact}, emissionsKey r = emissionsKey x → emissionsOverwrite r x = x := by
  intro r x h
  cases r; cases x
  simp only [emissionsKey, Prod.mk.injEq] at h
  simp only [emissionsOverwrite]
  obtain ⟨h1, h2, h3⟩ := h
  simp [h1, h2, h3]

theorem intensityOverwrite_key (r x : IntensityFact) :
    intensityKey (intensityOverwrite r x) = intensityKey r := rfl

theorem intensityOverwrite_of_key_eq :
    ∀ {r x : IntensityFact}, intensityKey r = intensityKey x → intensityOverwrite r x = x := by
  intro r x h
  cases r; cases x
  simp only [intensityKey, Prod.mk.injEq] at h
  simp only [intensityOverwrite]
  obtain ⟨h1, h2⟩ := h
  simp [h1, h2]

/- ------------------------------------------------------------------
Equational characterizations of the fact upserts and of the load phases.
------------------------------------------------------------------ -/
theorem upsert_fact_energy_eq (s : DBState) (df : List EnergyFact) :
    upsert_fact_energy s df =
      if (df.map energyKey).Nodup then
        .ok { s with
          fact_energy := df.foldl (mergeRow energyKey energyOverwrite) s.fact_energy
          stg_fact_energy := none }
      else .error (.conflictError "fact_energy_monthly") := by
  by_cases h : (df.map energyKey).Nodup
  · simp [upsert_fact_energy, mergeStmt, h]
  · simp [upsert_fact_energy, mergeStmt, h]

theorem upsert_fact_emissions_eq (s : DBState) (df : List EmissionsFact) :
    upsert_fact_emissions s df =
      if (df.map emissionsKey).Nodup then
        .ok { s with
          fact_emissions := df.foldl (mergeRow emissionsKey emissionsOverwrite) s.fact_emissions
          stg_fact_emissions := none }
      else .error (.conflictError "fact_emissions_monthly") := by
  by_cases h : (df.map emissionsKey).Nodup
  · simp [upsert_fact_emissions, mergeStmt, h]
  · simp [upsert_fact_emissions, mergeStmt, h]

theorem upsert_fact_intensity_eq (s : DBState) (df : List IntensityFact) :
    upsert_fact_intensity s df =
      if (df.map intensityKey).Nodup then
        .ok { s with
          fact_intensity := df.foldl (mergeRow intensityKey intensityOverwrite) s.fact_intensity
          stg_fact_intensity := none }
      else .error (.conflictError "fact_carbon_intensity") := by
  by_cases h : (df.map intensityKey).Nodup
  · simp [upsert_fact_intensity, mergeStmt, h]
  · simp [upsert_fact_intensity, mergeStmt, h]

theorem mergePhase_eq (m : Marts) (s : DBState) :
    mergePhase m s =
      if ¬ ((cleanEnergyRows m s).map energyKey).Nodup then
        .error (.conflictError "fact_energy_monthly")
      else if ¬ ((cleanEmissionsRows m s).map emissionsKey).Nodup then
        .error (.conflictError "fact_emissions_monthly")
      else if ¬ ((cleanIntensityRows m s).map intensityKey).Nodup then
        .error (.conflictError "fact_carbon_intensity")
      else .ok (mergedState m s) := by
  by_cases h1 : ((cleanEnergyRows m s).map energyKey).Nodup
  · by_cases h2 : ((cleanEmissionsRows m s).map emissionsKey).Nodup
    · by_cases h3 : ((cleanIntensityRows m s).map intensityKey).Nodup
      · simp [mergePhase, upsert_fact_energy_eq, upsert_fact_emissions_eq,
          upsert_fact_intensity_eq, h1, h2, h3, Except.bind, Bind.bind, Except.instMonad, mergedState]
      · simp [mergePhase, upsert_fact_energy_eq, upsert_fact_emissions_eq,
          upsert_fact_intensity_eq, h1, h2, h3, Except.bind, Bind.bind, Except.instMonad]
    · simp [mergePhase, upsert_fact_energy_eq, upsert_fact_emissions_eq,
        h1, h2, Except.bind, Bind.bind, Except.instMonad]
  · simp [mergePhase, upsert_fact_energy_eq, h1, Except.bind, Bind.bind, Except.instMonad]

theorem registerDims_fact_energy (m : Marts) (s : DBState) :
    (registerDims m s).fact_energy = s.fact_energy := rfl

theorem registerDims_fact_emissions (m : Marts) (s : DBState) :
    (registerDims m s).fact_emissions = s.fact_emissions := rfl

theorem registerDims_fact_intensity (m : Marts) (s : DBState) :
    (registerDims m s).fact_intensity = s.fact_intensity := rfl

theorem registerDims_dim_region (m : Marts) (s : DBState) :
    (registerDims m s).dim_region =
      upsert_dim_table s.dim_region (m.energy.map (fun r => r.region)) := rfl

theorem registerDims_dim_energy_source (m : Marts) (s : DBState) :
    (registerDims m s).dim_energy_source =
      upsert_dim_table s.dim_energy_source (m.energy.map (fun r => r.energy_source)) := rfl

theorem registerDims_dim_sector (m : Marts) (s : DBState) :
    (registerDims m s).dim_sector =
      upsert_dim_table s.dim_sector (m.emissions.map (fun r => r.sector)) := rfl

theorem registerDims_dim_time (m : Marts) (s : DBState) :
    (registerDims m s).dim_time =
      upsert_dim_time s.dim_time (distinctFirst
        (m.energy.map (fun r => (r.year, r.month)) ++
         m.emissions.map (fun r => (r.year, r.month)) ++
         m.intensity.map (fun r => (r.year, r.month)))) := rfl

/-- After registration, every (year, month) pair of any mart row is present in
dim_time. -/
theorem registerDims_time_covers {m : Marts} {s : DBState} {p : Nat × Nat}
    (h : p ∈ m.energy.map (fun r => (r.year, r.month)) ∨
         p ∈ m.emissions.map (fun r => (r.year, r.month)) ∨
         p ∈ m.intensity.map (fun r => (r.year, r.month))) :
    p ∈ (registerDims m s).dim_time.pairs := by
  rw [registerDims_dim_time]
  apply mem_pairs_upsert_dim_time
  rw [mem_distinctFirst, List.append_assoc, List.mem_append, List.mem_append]
  exact h

/-- After registration, every region of the energy mart is present in
dim_region (note: the loader registers regions from the energy mart only). -/
theorem registerDims_region_covers {m : Marts} {s : DBState} {r : EnergyMartRow}
    (h : r ∈ m.energy) : r.region ∈ (registerDims m s).dim_region.names := by
  rw [registerDims_dim_region]
  exact mem_names_upsert_dim_table (List.mem_map_of_mem _ h)

/-- After registration, every energy source of the energy mart is present in
dim_energy_source. -/
theorem registerDims_source_covers {m : Marts} {s : DBState} {r : EnergyMartRow}
    (h : r ∈ m.energy) : r.energy_source ∈ (registerDims m s).dim_energy_source.names := by
  rw [registerDims_dim_energy_source]
  exact mem_names_upsert_dim_table (List.mem_map_of_mem _ h)

/-- After registration, every sector of the emissions mart is present in
dim_sector. -/
theorem registerDims_sector_covers {m : Marts} {s : DBState} {r : EmissionsMartRow}
    (h : r ∈ m.emissions) : r.sector ∈ (registerDims m s).dim_sector.names := by
  rw [registerDims_dim_sector]
  exact mem_names_upsert_dim_table (List.mem_map_of_mem _ h)

/-- Registration is a no-op on a state whose dimension tables already contain
every candidate value. -/
theorem registerDims_noop {m : Marts} {s : DBState}
    (hr : ∀ r ∈ m.energy, (r : EnergyMartRow).region ∈ s.dim_region.names)
    (hs : ∀ r ∈ m.energy, (r : EnergyMartRow).energy_source ∈ s.dim_energy_source.names)
    (hc : ∀ r ∈ m.emissions, (r : EmissionsMartRow).sector ∈ s.dim_sector.names)
    (ht : ∀ p ∈ (m.energy.map (fun r => (r.year, r.month)) ++
         m.emissions.map (fun r => (r.year, r.month)) ++
         m.intensity.map (fun r => (r.year, r.month))), p ∈ s.dim_time.pairs) :
    registerDims m s = s := by
  unfold registerDims
  have h1 : upsert_dim_table s.dim_region (m.energy.map (fun r => r.region)) = s.dim_region := by
    apply upsert_dim_table_noop
    intro v hv
    rw [List.mem_map] at hv
    obtain ⟨r, hrm, rfl⟩ := hv
    exact hr r hrm
  have h2 : upsert_dim_table s.dim_energy_source (m.energy.map (fun r => r.energy_source)) =
      s.dim_energy_source := by
    apply upsert_dim_table_noop
    intro v hv
    rw [List.mem_map] at hv
    obtain ⟨r, hrm, rfl⟩ := hv
    exact hs r hrm
  have h3 : upsert_dim_table s.dim_sector (m.emissions.map (fun r => r.sector)) =
      s.dim_sector := by
    apply upsert_dim_table_noop
    intro v hv
    rw [List.mem_map] at hv
    obtain ⟨r, hrm, rfl⟩ := hv
    exact hc r hrm
  have h4 : upsert_dim_time s.dim_time (distinctFirst
      (m.energy.map (fun r => (r.year, r.month)) ++
       m.emissions.map (fun r => (r.year, r.month)) ++
       m.intensity.map (fun r => (r.year, r.month)))) = s.dim_time := by
    apply upsert_dim_time_noop
    intro p hp
    exact ht p (mem_distinctFirst.mp hp)
  simp only [h1, h2, h3]
  simp only [h4]

/-- The built dataframes depend only on the dimension tables of the state. -/
theorem builtEnergy_congr {m : Marts} {s s' : DBState}
    (h1 : s.dim_region = s'.dim_region) (h2 : s.dim_energy_source = s'.dim_energy_source)
    (h3 : s.dim_time = s'.dim_time) : builtEnergy m s = builtEnergy m s' := by
  unfold builtEnergy
  rw [h1, h2, h3]

theorem builtEmissions_congr {m : Marts} {s s' : DBState}
    (h1 : s.dim_region = s'.dim_region) (h2 : s.dim_sector = s'.dim_sector)
    (h3 : s.dim_time = s'.dim_time) : builtEmissions m s = builtEmissions m s' := by
  unfold builtEmissions
  rw [h1, h2, h3]

theorem builtIntensity_congr {m : Marts} {s s' : DBState}
    (h1 : s.dim_region = s'.dim_region) (h3 : s.dim_time = s'.dim_time) :
    builtIntensity m s = builtIntensity m s' := by
  unfold builtIntensity
  rw [h1, h3]

theorem nullGuard_none_iff {m : Marts} {s : DBState} :
    nullGuard m s = none ↔
      energyBadCols (builtEnergy m s) = [] ∧
      emissionsBadCols (builtEmissions m s) = [] ∧
      intensityBadCols (builtIntensity m s) = [] := by
  unfold nullGuard
  by_cases h1 : energyBadCols (builtEnergy m s) = []
  · by_cases h2 : emissionsBadCols (builtEmissions m s) = []
    · by_cases h3 : intensityBadCols (builtIntensity m s) = []
      · simp [h1, h2, h3]
      · simp [h1, h2, h3]
    · simp [h1, h2]
  · simp [h1]

theorem mergePhase_ok_iff {m : Marts} {s s' : DBState} :
    mergePhase m s = .ok s' ↔
      ((cleanEnergyRows m s).map energyKey).Nodup ∧
      ((cleanEmissionsRows m s).map emissionsKey).Nodup ∧
      ((cleanIntensityRows m s).map intensityKey).Nodup ∧
      s' = mergedState m s := by
  rw [mergePhase_eq]
  by_cases h1 : ((cleanEnergyRows m s).map energyKey).Nodup
  · by_cases h2 : ((cleanEmissionsRows m s).map emissionsKey).Nodup
    · by_cases h3 : ((cleanIntensityRows m s).map intensityKey).Nodup
      · rw [if_neg (not_not.mpr h1), if_neg (not_not.mpr h2), if_neg (not_not.mpr h3)]
        constructor
        · intro he
          exact ⟨h1, h2, h3, (Except.ok.inj he).symm⟩
        · rintro ⟨_, _, _, rfl⟩
          rfl
      · simp [h1, h2, h3]
    · simp [h1, h2]
  · simp [h1]

theorem loadSteps_ok_iff {m : Marts} {s s' : DBState} :
    loadSteps m s = .ok s' ↔
      nullGuard m (registerDims m s) = none ∧
      mergePhase m (registerDims m s) = .ok s' := by
  simp only [loadSteps]
  cases hg : nullGuard m (registerDims m s) with
  | some e => simp
  | none => simp

theorem loadSteps_error_iff {m : Marts} {s : DBState} {e : LoadError} :
    loadSteps m s = .error e ↔
      nullGuard m (registerDims m s) = some e ∨
      (nullGuard m (registerDims m s) = none ∧
        mergePhase m (registerDims m s) = .error e) := by
  simp only [loadSteps]
  cases hg : nullGuard m (registerDims m s) with
  | some e2 =>
    constructor
    · intro he
      rw [Except.error.inj he]
      exact Or.inl rfl
    · rintro (h | ⟨hc, _⟩)
      · rw [Option.some.inj h]
      · exact absurd hc (by simp)
  | none => simp

theorem mainLoad_of_loadSteps_ok {m : Marts} {s s' : DBState}
    (h : loadSteps m s = .ok s') : mainLoad m s = (s', none) := by
  unfold mainLoad
  rw [h]

theorem mainLoad_of_loadSteps_error {m : Marts} {s : DBState} {e : LoadError}
    (h : loadSteps m s = .error e) : mainLoad m s = (s, some e) := by
  unfold mainLoad
  rw [h]

theorem mainLoad_cases (m : Marts) (s : DBState) :
    (∃ s', loadSteps m s = .ok s' ∧ mainLoad m s = (s', none)) ∨
    (∃ e, loadSteps m s = .error e ∧ mainLoad m s = (s, some e)) := by
  cases h : loadSteps m s with
  | ok s' => exact Or.inl ⟨s', rfl, mainLoad_of_loadSteps_ok h⟩
  | error e => exact Or.inr ⟨e, rfl, mainLoad_of_loadSteps_error h⟩

theorem mainLoad_none_iff {m : Marts} {s s' : DBState} :
    mainLoad m s = (s', none) ↔ loadSteps m s = .ok s' := by
  unfold mainLoad
  cases h : loadSteps m s with
  | ok t =>
    constructor
    · intro hp
      rw [(Prod.mk.inj hp).1]
    · intro ho
      rw [Except.ok.inj ho]
  | error e =>
    constructor
    · intro hp
      exact absurd (Prod.mk.inj hp).2 (by simp)
    · intro ho
      exact absurd ho (by simp)

theorem DBState.ext10 {s t : DBState}
    (h1 : s.dim_region = t.dim_region)
    (h2 : s.dim_energy_source = t.dim_energy_source)
    (h3 : s.dim_sector = t.dim_sector)
    (h4 : s.dim_time = t.dim_time)
    (h5 : s.fact_energy = t.fact_energy)
    (h6 : s.fact_emissions = t.fact_emissions)
    (h7 : s.fact_intensity = t.fact_intensity)
    (h8 : s.stg_fact_energy = t.stg_fact_energy)
    (h9 : s.stg_fact_emissions = t.stg_fact_emissions)
    (h10 : s.stg_fact_intensity = t.stg_fact_intensity) : s = t := by
  cases s; cases t
  rw [DBState.mk.injEq]
  exact ⟨h1, h2, h3, h4, h5, h6, h7, h8, h9, h10⟩

theorem mergedState_dim_region (m : Marts) (s : DBState) :
    (mergedState m s).dim_region = s.dim_region := rfl

theorem mergedState_dim_energy_source (m : Marts) (s : DBState) :
    (mergedState m s).dim_energy_source = s.dim_energy_source := rfl

theorem mergedState_dim_sector (m : Marts) (s : DBState) :
    (mergedState m s).dim_sector = s.dim_sector := rfl

theorem mergedState_dim_time (m : Marts) (s : DBState) :
    (mergedState m s).dim_time = s.dim_time := rfl

theorem mergedState_stg (m : Marts) (s : DBState) :
    (mergedState m s).stg_fact_energy = none ∧
    (mergedState m s).stg_fact_emissions = none ∧
    (mergedState m s).stg_fact_intensity = none := ⟨rfl, rfl, rfl⟩

theorem mergedState_fact_energy (m : Marts) (s : DBState) :
    (mergedState m s).fact_energy =
      (cleanEnergyRows m s).foldl (mergeRow energyKey energyOverwrite) s.fact_energy := rfl

theorem mergedState_fact_emissions (m : Marts) (s : DBState) :
    (mergedState m s).fact_emissions =
      (cleanEmissionsRows m s).foldl (mergeRow emissionsKey emissionsOverwrite)
        s.fact_emissions := rfl

theorem mergedState_fact_intensity (m : Marts) (s : DBState) :
    (mergedState m s).fact_intensity =
      (cleanIntensityRows m s).foldl (mergeRow intensityKey intensityOverwrite)
        s.fact_intensity := rfl

theorem cleanEnergyRows_congr {m : Marts} {s s' : DBState}
    (h : builtEnergy m s = builtEnergy m s') : cleanEnergyRows m s = cleanEnergyRows m s' := by
  unfold cleanEnergyRows
  rw [h]

theorem cleanEmissionsRows_congr {m : Marts} {s s' : DBState}
    (h : builtEmissions m s = builtEmissions m s') :
    cleanEmissionsRows m s = cleanEmissionsRows m s' := by
  unfold cleanEmissionsRows
  rw [h]

theorem cleanIntensityRows_congr {m : Marts} {s s' : DBState}
    (h : builtIntensity m s = builtIntensity m s') :
    cleanIntensityRows m s = cleanIntensityRows m s' := by
  unfold cleanIntensityRows
  rw [h]

theorem nullGuard_congr {m : Marts} {s s' : DBState}
    (h1 : builtEnergy m s = builtEnergy m s')
    (h2 : builtEmissions m s = builtEmissions m s')
    (h3 : builtIntensity m s = builtIntensity m s') : nullGuard m s = nullGuard m s' := by
  unfold nullGuard
  rw [h1, h2, h3]

/-- C1: loading the same marts twice is idempotent.  If a load of marts `m`
against a warehouse `s0` satisfying the fact tables' UNIQUE key constraints
commits successfully with final state `s1`, then running the whole load again
on the same marts against `s1` commits again and leaves every dimension table
and every fact table (and the whole warehouse state) exactly equal to `s1`:
the second run inserts no dimension rows and every fact upsert overwrites each
existing row with identical values. -/
theorem C1_load_idempotent (m : Marts) (s0 s1 : DBState)
    (hwf : s0.factsWf) (h : mainLoad m s0 = (s1, none)) :
    mainLoad m s1 = (s1, none) := by
  rw [mainLoad_none_iff] at h ⊢
  rw [loadSteps_ok_iff] at h ⊢
  obtain ⟨hg, hm⟩ := h
  rw [mergePhase_ok_iff] at hm
  obtain ⟨n1, n2, n3, hs1⟩ := hm
  subst hs1
  have hA : registerDims m (mergedState m (registerDims m s0)) =
      mergedState m (registerDims m s0) := by
    apply registerDims_noop
    · intro r hr
      exact registerDims_region_covers hr
    · intro r hr
      exact registerDims_source_covers hr
    · intro r hr
      exact registerDims_sector_covers hr
    · intro p hp
      rcases List.mem_append.mp hp with hp2 | hp2
      · rcases List.mem_append.mp hp2 with hp3 | hp3
        · exact registerDims_time_covers (Or.inl hp3)
        · exact registerDims_time_covers (Or.inr (Or.inl hp3))
      · exact registerDims_time_covers (Or.inr (Or.inr hp2))
  have hbE : builtEnergy m (mergedState m (registerDims m s0)) =
      builtEnergy m (registerDims m s0) := builtEnergy_congr rfl rfl rfl
  have hbM : builtEmissions m (mergedState m (registerDims m s0)) =
      builtEmissions m (registerDims m s0) := builtEmissions_congr rfl rfl rfl
  have hbI : builtIntensity m (mergedState m (registerDims m s0)) =
      builtIntensity m (registerDims m s0) := builtIntensity_congr rfl rfl
  have hcE := cleanEnergyRows_congr (m := m) hbE
  have hcM := cleanEmissionsRows_congr (m := m) hbM
  have hcI := cleanIntensityRows_congr (m := m) hbI
  rw [hA]
  constructor
  · rw [nullGuard_congr hbE hbM hbI]
    exact hg
  · rw [mergePhase_ok_iff]
    refine ⟨by rw [hcE]; exact n1, by rw [hcM]; exact n2, by rw [hcI]; exact n3, ?_⟩
    apply DBState.ext10 <;>
      first
      | rfl
      | skip
    · conv_rhs => rw [mergedState_fact_energy, hcE]
      refine (foldMerge_eq_of_all_mem energyKey energyOverwrite
        (fun r x hk => energyOverwrite_of_key_eq hk) _ _ ?_ ?_).symm
      · exact foldMerge_keys_nodup energyKey energyOverwrite energyOverwrite_key _ _ hwf.1
      · intro x hx
        exact foldMerge_mem energyKey energyOverwrite
          (fun r y hk => energyOverwrite_of_key_eq hk) _ _ n1 x hx
    · conv_rhs => rw [mergedState_fact_emissions, hcM]
      refine (foldMerge_eq_of_all_mem emissionsKey emissionsOverwrite
        (fun r x hk => emissionsOverwrite_of_key_eq hk) _ _ ?_ ?_).symm
      · exact foldMerge_keys_nodup emissionsKey emissionsOverwrite
          emissionsOverwrite_key _ _ hwf.2.1
      · intro x hx
        exact foldMerge_mem emissionsKey emissionsOverwrite
          (fun r y hk => emissionsOverwrite_of_key_eq hk) _ _ n2 x hx
    · conv_rhs => rw [mergedState_fact_intensity, hcI]
      refine (foldMerge_eq_of_all_mem intensityKey intensityOverwrite
        (fun r x hk => intensityOverwrite_of_key_eq hk) _ _ ?_ ?_).symm
      · exact foldMerge_keys_nodup intensityKey intensityOverwrite
          intensityOverwrite_key _ _ hwf.2.2
      · intro x hx
        exact foldMerge_mem intensityKey intensityOverwrite
          (fun r y hk => intensityOverwrite_of_key_eq hk) _ _ n3 x hx

theorem fetch_dim_map_eq_none {t : DimTable} {v : String} (h : v ∉ t.names) :
    fetch_dim_map t v = none := by
  unfold fetch_dim_map
  rw [Option.map_eq_none']
  rw [List.find?_eq_none]
  intro r hr
  simp only [decide_eq_true_eq]
  intro hc
  exact h (hc ▸ List.mem_map_of_mem Prod.snd hr)

theorem fetch_time_map_eq_none {t : TimeTable} {p : Nat × Nat} (h : p ∉ t.pairs) :
    fetch_time_map t p = none := by
  unfold fetch_time_map
  rw [Option.map_eq_none']
  rw [List.find?_eq_none]
  intro r hr
  simp only [decide_eq_true_eq]
  rintro ⟨h1, h2⟩
  apply h
  unfold TimeTable.pairs
  refine List.mem_map.mpr ⟨r, hr, ?_⟩
  cases p
  simp only [Prod.mk.injEq]
  exact ⟨h1, h2⟩

/-- C5: for every candidate collection, dimension registration inserts exactly
the distinct candidate values (respectively (year, month) pairs) that have no
equal existing row, appended after the unchanged existing rows so that every
existing surrogate id is untouched; an empty candidate collection, or one
wholly contained in the existing rows, writes no rows. -/
theorem C5_dim_registration_append_only (t : DimTable) (u : TimeTable)
    (vs : List String) (ps : List (Nat × Nat)) :
    (∃ l, (upsert_dim_table t vs).rows = t.rows ++ l ∧
       l.map Prod.snd = (sortedDistinct vs).filter (fun v => ¬ v ∈ t.names)) ∧
    (vs = [] → upsert_dim_table t vs = t) ∧
    ((∀ v ∈ vs, v ∈ t.names) → upsert_dim_table t vs = t) ∧
    (∃ l, (upsert_dim_time u ps).rows = u.rows ++ l ∧
       l.map (fun r => (r.2.1, r.2.2)) = (distinctFirst ps).filter
         (fun p => ¬ u.rows.any (fun r => r.2.1 = p.1 ∧ r.2.2 = p.2))) ∧
    (ps = [] → upsert_dim_time u ps = u) ∧
    ((∀ p ∈ ps, p ∈ u.pairs) → upsert_dim_time u ps = u) := by
  refine ⟨upsert_dim_table_rows t vs, ?_, upsert_dim_table_noop,
    upsert_dim_time_rows u ps, ?_, upsert_dim_time_noop⟩
  · intro h
    subst h
    apply upsert_dim_table_noop
    intro v hv
    exact absurd hv (List.not_mem_nil v)
  · intro h
    subst h
    apply upsert_dim_time_noop
    intro p hp
    exact absurd hp (List.not_mem_nil p)

/-- C10: `upsert_dim_table` is deterministic in the set of candidates: two
candidate lists with the same set of distinct values produce identical results
(candidate order and duplicate multiplicity are irrelevant), and the newly
inserted values follow the existing rows in ascending lexicographic order of
the natural key. -/
theorem C10_dim_registration_set_deterministic (t : DimTable) (vs ws : List String)
    (h : vs.toFinset = ws.toFinset) :
    upsert_dim_table t vs = upsert_dim_table t ws ∧
    List.Sorted (fun a b => strLe a b = true)
      (((upsert_dim_table t vs).rows.drop t.rows.length).map Prod.snd) := by
  constructor
  · unfold upsert_dim_table
    rw [sortedDistinct_eq_of_toFinset h]
  · obtain ⟨l, hl, hsnd⟩ := upsert_dim_table_rows t vs
    rw [hl, List.drop_left, hsnd]
    exact List.Pairwise.filter _ (sortedDistinct_sorted vs)

/-- C6: the fact-row builders replace each natural-key column (region,
energy_source, sector and the (year, month) pair) by its surrogate id looked
up in the corresponding mapping, pass every metric column through unchanged,
and are total: a natural-key value absent from its mapping (equivalently,
absent from the dimension table the mapping was fetched from) yields a missing
id cell instead of an exception. -/
theorem C6_fact_row_builder (rm sm cm : String → Option Nat)
    (tm : Nat × Nat → Option Nat) (r : EnergyMartRow) (q : EmissionsMartRow)
    (w : IntensityMartRow) :
    buildEnergyFact rm sm tm r =
      { region_id := rm r.region
        source_id := sm r.energy_source
        time_id := tm (r.year, r.month)
        avg_consumption_mwh := r.avg_consumption_mwh
        max_consumption_mwh := r.max_consumption_mwh
        avg_temp_c := r.avg_temp_c
        records := r.records } ∧
    buildEmissionsFact rm cm tm q =
      { region_id := rm q.region
        sector_id := cm q.sector
        time_id := tm (q.year, q.month)
        avg_co2_tonnes := q.avg_co2_tonnes
        total_co2_tonnes := q.total_co2_tonnes
        records := q.records } ∧
    buildIntensityFact rm tm w =
      { region_id := rm w.region
        time_id := tm (w.year, w.month)
        total_energy_mwh := w.total_energy_mwh
        total_co2_tonnes := w.total_co2_tonnes
        co2_per_mwh := w.co2_per_mwh } ∧
    (∀ dimT : DimTable, r.region ∉ dimT.names →
      (buildEnergyFact (fetch_dim_map dimT) sm tm r).region_id = none) ∧
    (∀ timeT : TimeTable, (r.year, r.month) ∉ timeT.pairs →
      (buildEnergyFact rm sm (fetch_time_map timeT) r).time_id = none) := by
  refine ⟨rfl, rfl, rfl, ?_, ?_⟩
  · intro dimT hd
    exact fetch_dim_map_eq_none hd
  · intro timeT ht
    exact fetch_time_map_eq_none ht

/-- C9: `main` registers the union of the (year, month) pairs of all three
marts into dim_time before building any fact dataframe, so in each of the
three built fact dataframes every row's time_id cell is present. -/
theorem C9_time_ids_complete (m : Marts) (s : DBState) :
    (∀ r ∈ builtEnergy m (registerDims m s), (r : EnergyFactB).time_id.isSome) ∧
    (∀ r ∈ builtEmissions m (registerDims m s), (r : EmissionsFactB).time_id.isSome) ∧
    (∀ r ∈ builtIntensity m (registerDims m s), (r : IntensityFactB).time_id.isSome) := by
  refine ⟨?_, ?_, ?_⟩
  · intro r hr
    unfold builtEnergy at hr
    rw [List.mem_map] at hr
    obtain ⟨q, hq, rfl⟩ := hr
    exact fetch_time_map_isSome
      (registerDims_time_covers (Or.inl (List.mem_map_of_mem _ hq)))
  · intro r hr
    unfold builtEmissions at hr
    rw [List.mem_map] at hr
    obtain ⟨q, hq, rfl⟩ := hr
    exact fetch_time_map_isSome
      (registerDims_time_covers (Or.inr (Or.inl (List.mem_map_of_mem _ hq))))
  · intro r hr
    unfold builtIntensity at hr
    rw [List.mem_map] at hr
    obtain ⟨q, hq, rfl⟩ := hr
    exact fetch_time_map_isSome
      (registerDims_time_covers (Or.inr (Or.inr (List.mem_map_of_mem _ hq))))

/-- C3: if any built fact dataframe contains a missing cell in any column, the
load raises the data-integrity ValueError of `main` naming the offending
dataframe (the first bad one in check order) and exactly its columns
containing missing values, and the returned warehouse is the prior state: no
rows of any of the three fact tables are written. -/
theorem C3_integrity_guard_fail_fast (m : Marts) (s : DBState)
    (h : ¬ (energyBadCols (builtEnergy m (registerDims m s)) = [] ∧
            emissionsBadCols (builtEmissions m (registerDims m s)) = [] ∧
            intensityBadCols (builtIntensity m (registerDims m s)) = [])) :
    ∃ tbl cols, cols ≠ [] ∧
      ((tbl = "energy_fact" ∧ cols = energyBadCols (builtEnergy m (registerDims m s))) ∨
       (tbl = "emissions_fact" ∧
         cols = emissionsBadCols (builtEmissions m (registerDims m s))) ∨
       (tbl = "intensity_fact" ∧
         cols = intensityBadCols (builtIntensity m (registerDims m s)))) ∧
      mainLoad m s = (s, some (LoadError.nullsError tbl cols)) := by
  by_cases h1 : energyBadCols (builtEnergy m (registerDims m s)) = []
  · by_cases h2 : emissionsBadCols (builtEmissions m (registerDims m s)) = []
    · by_cases h3 : intensityBadCols (builtIntensity m (registerDims m s)) = []
      · exact absurd ⟨h1, h2, h3⟩ h
      · refine ⟨"intensity_fact", _, h3, Or.inr (Or.inr ⟨rfl, rfl⟩), ?_⟩
        apply mainLoad_of_loadSteps_error
        rw [loadSteps_error_iff]
        left
        unfold nullGuard
        rw [if_neg (not_not.mpr h1), if_neg (not_not.mpr h2), if_pos h3]
    · refine ⟨"emissions_fact", _, h2, Or.inr (Or.inl ⟨rfl, rfl⟩), ?_⟩
      apply mainLoad_of_loadSteps_error
      rw [loadSteps_error_iff]
      left
      unfold nullGuard
      rw [if_neg (not_not.mpr h1), if_pos h2]
  · refine ⟨"energy_fact", _, h1, Or.inl ⟨rfl, rfl⟩, ?_⟩
    apply mainLoad_of_loadSteps_error
    rw [loadSteps_error_iff]
    left
    unfold nullGuard
    rw [if_pos h1]

/-- C7: the load is one atomic transaction: whenever the run reports an error
(the integrity-guard failure included) the returned warehouse is exactly the
prior committed state, so no dimension insert, time insert or fact merge of
the run persists; and when it reports no error the returned warehouse carries
all of them together: the dimension registrations with all three fact merges
applied. -/
theorem C7_atomic_transaction (m : Marts) (s : DBState) :
    (∀ e, (mainLoad m s).2 = some e → (mainLoad m s).1 = s) ∧
    ((mainLoad m s).2 = none →
      mainLoad m s = (mergedState m (registerDims m s), none)) := by
  rcases mainLoad_cases m s with ⟨s', hok, hml⟩ | ⟨e, herr, hml⟩
  · constructor
    · intro e he
      rw [hml] at he
      exact absurd he (by simp)
    · intro _
      rw [loadSteps_ok_iff] at hok
      obtain ⟨hg, hm⟩ := hok
      rw [mergePhase_ok_iff] at hm
      rw [hml, hm.2.2.2]
  · constructor
    · intro e2 he
      rw [hml]
    · intro hn
      rw [hml] at hn
      exact absurd hn (by simp)

/-- C8: every fact upsert stages its incoming rows in its staging table, runs
the one conflict-aware merge statement against the target's unique key tuple,
and the staging table is released unconditionally: a successful upsert returns
a state whose staging table is gone and whose fact table is the merge result,
and a load started with no staging tables leaves none behind whether the
transaction commits or rolls back. -/
theorem C8_staging_transient (s : DBState) (dfE : List EnergyFact)
    (dfM : List EmissionsFact) (dfI : List IntensityFact) (m : Marts) :
    (∀ s', upsert_fact_energy s dfE = .ok s' →
      s'.stg_fact_energy = none ∧
      mergeStmt energyKey energyOverwrite "fact_energy_monthly" s.fact_energy dfE =
        .ok s'.fact_energy) ∧
    (∀ s', upsert_fact_emissions s dfM = .ok s' →
      s'.stg_fact_emissions = none ∧
      mergeStmt emissionsKey emissionsOverwrite "fact_emissions_monthly" s.fact_emissions dfM =
        .ok s'.fact_emissions) ∧
    (∀ s', upsert_fact_intensity s dfI = .ok s' →
      s'.stg_fact_intensity = none ∧
      mergeStmt intensityKey intensityOverwrite "fact_carbon_intensity" s.fact_intensity dfI =
        .ok s'.fact_intensity) ∧
    (s.stg_fact_energy = none → s.stg_fact_emissions = none →
     s.stg_fact_intensity = none →
      (mainLoad m s).1.stg_fact_energy = none ∧
      (mainLoad m s).1.stg_fact_emissions = none ∧
      (mainLoad m s).1.stg_fact_intensity = none) := by
  refine ⟨?_, ?_, ?_, ?_⟩
  · intro s' h
    rw [upsert_fact_energy_eq] at h
    by_cases hn : (dfE.map energyKey).Nodup
    · rw [if_pos hn] at h
      have hs := Except.ok.inj h
      refine ⟨by rw [← hs], ?_⟩
      rw [mergeStmt_ok_iff, ← hs]
      exact ⟨hn, rfl⟩
    · rw [if_neg hn] at h
      exact absurd h (by simp)
  · intro s' h
    rw [upsert_fact_emissions_eq] at h
    by_cases hn : (dfM.map emissionsKey).Nodup
    · rw [if_pos hn] at h
      have hs := Except.ok.inj h
      refine ⟨by rw [← hs], ?_⟩
      rw [mergeStmt_ok_iff, ← hs]
      exact ⟨hn, rfl⟩
    · rw [if_neg hn] at h
      exact absurd h (by simp)
  · intro s' h
    rw [upsert_fact_intensity_eq] at h
    by_cases hn : (dfI.map intensityKey).Nodup
    · rw [if_pos hn] at h
      have hs := Except.ok.inj h
      refine ⟨by rw [← hs], ?_⟩
      rw [mergeStmt_ok_iff, ← hs]
      exact ⟨hn, rfl⟩
    · rw [if_neg hn] at h
      exact absurd h (by simp)
  · intro h1 h2 h3
    rcases mainLoad_cases m s with ⟨s', hok, hml⟩ | ⟨e, herr, hml⟩
    · rw [hml]
      rw [loadSteps_ok_iff] at hok
      obtain ⟨hg, hm⟩ := hok
      rw [mergePhase_ok_iff] at hm
      rw [hm.2.2.2]
      exact ⟨rfl, rfl, rfl⟩
    · rw [hml]
      exact ⟨h1, h2, h3⟩

/-- Generic convergence of two successive merges: merging dataframe A and then
dataframe B with the same key set leaves every row of B in the table, keeps
the unique-key invariant, and touches no row whose key is outside B's keys. -/
theorem merge_convergence {ρ κ : Type} [DecidableEq ρ] [DecidableEq κ]
    (key : ρ → κ) (over : ρ → ρ → ρ)
    (hk : ∀ r x, key (over r x) = key r) (ho : ∀ r x, key r = key x → over r x = x)
    (rows A B : List ρ) (h0 : (rows.map key).Nodup) (hA : (A.map key).Nodup)
    (hB : (B.map key).Nodup) (hset : (A.map key).toFinset = (B.map key).toFinset) :
    (∀ x ∈ B, x ∈ B.foldl (mergeRow key over) (A.foldl (mergeRow key over) rows)) ∧
    ((B.foldl (mergeRow key over) (A.foldl (mergeRow key over) rows)).map key).Nodup ∧
    (∀ y, key y ∉ B.map key →
      (y ∈ B.foldl (mergeRow key over) (A.foldl (mergeRow key over) rows) ↔ y ∈ rows)) := by
  refine ⟨?_, ?_, ?_⟩
  · intro x hx
    exact foldMerge_mem key over ho B _ hB x hx
  · exact foldMerge_keys_nodup key over hk B _ (foldMerge_keys_nodup key over hk A rows h0)
  · intro y hy
    have hyA : key y ∉ A.map key := fun hc =>
      hy (List.mem_toFinset.mp (hset ▸ List.mem_toFinset.mpr hc))
    rw [foldMerge_mem_iff_of_not_key key over hk B _ y hy,
      foldMerge_mem_iff_of_not_key key over hk A rows y hyA]

/-- C2: the fact upserts are last-write-wins per key tuple, for each of the
three fact tables.  A successful upsert merges its dataframe row by row into
the fact table; merging one row whose key tuple is present overwrites exactly
the matching row's metric columns (adding no row), and one whose key tuple is
absent appends a new row; and merging dataframe A then a revised dataframe B
with the same key tuples leaves every row of B present, no duplicate key
tuples, and every row outside B's keys untouched — values are replaced, never
accumulated. -/
theorem C2_upsert_last_write_wins :
    (∀ (s : DBState) (df : List EnergyFact) (s' : DBState),
      upsert_fact_energy s df = .ok s' →
        s'.fact_energy = df.foldl (mergeRow energyKey energyOverwrite) s.fact_energy) ∧
    (∀ (rows : List EnergyFact) (x : EnergyFact), energyKey x ∈ rows.map energyKey →
      mergeRow energyKey energyOverwrite rows x =
        rows.map (fun r => if energyKey r = energyKey x then energyOverwrite r x else r) ∧
      (mergeRow energyKey energyOverwrite rows x).length = rows.length) ∧
    (∀ (rows : List EnergyFact) (x : EnergyFact), energyKey x ∉ rows.map energyKey →
      mergeRow energyKey energyOverwrite rows x = rows ++ [x]) ∧
    (∀ (rows A B : List EnergyFact),
      (rows.map energyKey).Nodup → (A.map energyKey).Nodup → (B.map energyKey).Nodup →
      (A.map energyKey).toFinset = (B.map energyKey).toFinset →
      (∀ x ∈ B, x ∈ B.foldl (mergeRow energyKey energyOverwrite)
        (A.foldl (mergeRow energyKey energyOverwrite) rows)) ∧
      ((B.foldl (mergeRow energyKey energyOverwrite)
        (A.foldl (mergeRow energyKey energyOverwrite) rows)).map energyKey).Nodup ∧
      (∀ y, energyKey y ∉ B.map energyKey →
        (y ∈ B.foldl (mergeRow energyKey energyOverwrite)
          (A.foldl (mergeRow energyKey energyOverwrite) rows) ↔ y ∈ rows))) ∧
    (∀ (s : DBState) (df : List EmissionsFact) (s' : DBState),
      upsert_fact_emissions s df = .ok s' →
        s'.fact_emissions =
          df.foldl (mergeRow emissionsKey emissionsOverwrite) s.fact_emissions) ∧
    (∀ (rows : List EmissionsFact) (x : EmissionsFact),
      emissionsKey x ∈ rows.map emissionsKey →
      mergeRow emissionsKey emissionsOverwrite rows x =
        rows.map (fun r => if emissionsKey r = emissionsKey x then emissionsOverwrite r x else r) ∧
      (mergeRow emissionsKey emissionsOverwrite rows x).length = rows.length) ∧
    (∀ (rows : List EmissionsFact) (x : EmissionsFact),
      emissionsKey x ∉ rows.map emissionsKey →
      mergeRow emissionsKey emissionsOverwrite rows x = rows ++ [x]) ∧
    (∀ (rows A B : List EmissionsFact),
      (rows.map emissionsKey).Nodup → (A.map emissionsKey).Nodup →
      (B.map emissionsKey).Nodup →
      (A.map emissionsKey).toFinset = (B.map emissionsKey).toFinset →
      (∀ x ∈ B, x ∈ B.foldl (mergeRow emissionsKey emissionsOverwrite)
        (A.foldl (mergeRow emissionsKey emissionsOverwrite) rows)) ∧
      ((B.foldl (mergeRow emissionsKey emissionsOverwrite)
        (A.foldl (mergeRow emissionsKey emissionsOverwrite) rows)).map emissionsKey).Nodup ∧
      (∀ y, emissionsKey y ∉ B.map emissionsKey →
        (y ∈ B.foldl (mergeRow emissionsKey emissionsOverwrite)
          (A.foldl (mergeRow emissionsKey emissionsOverwrite) rows) ↔ y ∈ rows))) ∧
    (∀ (s : DBState) (df : List IntensityFact) (s' : DBState),
      upsert_fact_intensity s df = .ok s' →
        s'.fact_intensity =
          df.foldl (mergeRow intensityKey intensityOverwrite) s.fact_intensity) ∧
    (∀ (rows : List IntensityFact) (x : IntensityFact),
      intensityKey x ∈ rows.map intensityKey →
      mergeRow intensityKey intensityOverwrite rows x =
        rows.map (fun r => if intensityKey r = intensityKey x then intensityOverwrite r x else r) ∧
      (mergeRow intensityKey intensityOverwrite rows x).length = rows.length) ∧
    (∀ (rows : List IntensityFact) (x : IntensityFact),
      intensityKey x ∉ rows.map intensityKey →
      mergeRow intensityKey intensityOverwrite rows x = rows ++ [x]) ∧
    (∀ (rows A B : List IntensityFact),
      (rows.map intensityKey).Nodup → (A.map intensityKey).Nodup →
      (B.map intensityKey).Nodup →
      (A.map intensityKey).toFinset = (B.map intensityKey).toFinset →
      (∀ x ∈ B, x ∈ B.foldl (mergeRow intensityKey intensityOverwrite)
        (A.foldl (mergeRow intensityKey intensityOverwrite) rows)) ∧
      ((B.foldl (mergeRow intensityKey intensityOverwrite)
        (A.foldl (mergeRow intensityKey intensityOverwrite) rows)).map intensityKey).Nodup ∧
      (∀ y, intensityKey y ∉ B.map intensityKey →
        (y ∈ B.foldl (mergeRow intensityKey intensityOverwrite)
          (A.foldl (mergeRow intensityKey intensityOverwrite) rows) ↔ y ∈ rows))) := by
  refine ⟨?_, ?_, ?_, ?_, ?_, ?_, ?_, ?_, ?_, ?_, ?_, ?_⟩
  · intro s df s' h
    rw [upsert_fact_energy_eq] at h
    by_cases hn : (df.map energyKey).Nodup
    · rw [if_pos hn] at h
      rw [← Except.ok.inj h]
    · rw [if_neg hn] at h
      exact absurd h (by simp)
  · intro rows x hx
    refine ⟨mergeRow_of_present energyKey energyOverwrite hx, ?_⟩
    rw [mergeRow_of_present energyKey energyOverwrite hx, List.length_map]
  · intro rows x hx
    exact mergeRow_of_absent energyKey energyOverwrite hx
  · intro rows A B h0 hA hB hset
    exact merge_convergence energyKey energyOverwrite energyOverwrite_key
      (fun r x hk => energyOverwrite_of_key_eq hk) rows A B h0 hA hB hset
  · intro s df s' h
    rw [upsert_fact_emissions_eq] at h
    by_cases hn : (df.map emissionsKey).Nodup
    · rw [if_pos hn] at h
      rw [← Except.ok.inj h]
    · rw [if_neg hn] at h
      exact absurd h (by simp)
  · intro rows x hx
    refine ⟨mergeRow_of_present emissionsKey emissionsOverwrite hx, ?_⟩
    rw [mergeRow_of_present emissionsKey emissionsOverwrite hx, List.length_map]
  · intro rows x hx
    exact mergeRow_of_absent emissionsKey emissionsOverwrite hx
  · intro rows A B h0 hA hB hset
    exact merge_convergence emissionsKey emissionsOverwrite emissionsOverwrite_key
      (fun r x hk => emissionsOverwrite_of_key_eq hk) rows A B h0 hA hB hset
  · intro s df s' h
    rw [upsert_fact_intensity_eq] at h
    by_cases hn : (df.map intensityKey).Nodup
    · rw [if_pos hn] at h
      rw [← Except.ok.inj h]
    · rw [if_neg hn] at h
      exact absurd h (by simp)
  · intro rows x hx
    refine ⟨mergeRow_of_present intensityKey intensityOverwrite hx, ?_⟩
    rw [mergeRow_of_present intensityKey intensityOverwrite hx, List.length_map]
  · intro rows x hx
    exact mergeRow_of_absent intensityKey intensityOverwrite hx
  · intro rows A B h0 hA hB hset
    exact merge_convergence intensityKey intensityOverwrite intensityOverwrite_key
      (fun r x hk => intensityOverwrite_of_key_eq hk) rows A B h0 hA hB hset

/-- C4 counterexample: at the concrete input `martsZero` (one intensity row
with total_energy_mwh = 0, whose co2_per_mwh is therefore the undefined
sentinel, plus a matching energy row so every key resolves), the loader does
not persist the undefined ratio into fact_carbon_intensity: the NULL guard
rejects the entire load with an error naming intensity_fact and co2_per_mwh,
and fact_carbon_intensity stays empty. -/
theorem C4_counterexample :
    iRowZero.co2_per_mwh = none ∧
    mainLoad martsZero dbEmpty =
      (dbEmpty, some (LoadError.nullsError "intensity_fact" ["co2_per_mwh"])) ∧
    (mainLoad martsZero dbEmpty).1.fact_intensity = [] := by
  refine ⟨by decide, by decide, by decide⟩

/-- C4 amended: a carbon-intensity mart row whose total_energy_mwh is zero
carries co2_per_mwh as the undefined (missing) sentinel rather than causing a
division error — but the loader does not persist it: whenever the intensity
mart contains a row with an undefined co2_per_mwh (and the other two built
dataframes are clean), the NULL guard aborts the whole load with a
data-integrity error naming intensity_fact and its bad columns, co2_per_mwh
among them, leaving the warehouse unchanged. -/
theorem C4_amended_guard_rejects_undefined_ratio (co2 : ℚ) (m : Marts) (s : DBState)
    (hE : energyBadCols (builtEnergy m (registerDims m s)) = [])
    (hM : emissionsBadCols (builtEmissions m (registerDims m s)) = [])
    (hz : ∃ r ∈ m.intensity, (r : IntensityMartRow).co2_per_mwh = none) :
    carbonIntensityRatio co2 0 = none ∧
    "co2_per_mwh" ∈ intensityBadCols (builtIntensity m (registerDims m s)) ∧
    mainLoad m s = (s, some (LoadError.nullsError "intensity_fact"
      (intensityBadCols (builtIntensity m (registerDims m s))))) := by
  obtain ⟨r, hrm, hrz⟩ := hz
  have hany : ((builtIntensity m (registerDims m s)).any
      fun q => q.co2_per_mwh = none) = true := by
    rw [List.any_eq_true]
    refine ⟨buildIntensityFact (fetch_dim_map (registerDims m s).dim_region)
      (fetch_time_map (registerDims m s).dim_time) r, ?_, ?_⟩
    · unfold builtIntensity
      exact List.mem_map_of_mem _ hrm
    · simp only [decide_eq_true_eq]
      exact hrz
  have hmem : "co2_per_mwh" ∈ intensityBadCols (builtIntensity m (registerDims m s)) := by
    simp [intensityBadCols, hany]
  have hne : intensityBadCols (builtIntensity m (registerDims m s)) ≠ [] := by
    intro hc
    rw [hc] at hmem
    exact absurd hmem (List.not_mem_nil _)
  refine ⟨if_pos rfl, hmem, ?_⟩
  apply mainLoad_of_loadSteps_error
  rw [loadSteps_error_iff]
  left
  unfold nullGuard
  rw [if_neg (not_not.mpr hE), if_neg (not_not.mpr hM), if_pos hne]

/-- Witness for C1 at a concrete mart triple and empty warehouse. -/
theorem C1_load_idempotent_witness :
    mainLoad martsA (mainLoad martsA dbEmpty).1 = ((mainLoad martsA dbEmpty).1, none) :=
  C1_load_idempotent martsA dbEmpty (mainLoad martsA dbEmpty).1 (by decide) (by decide)

/-- Witness for C2: appending a row whose key tuple is absent. -/
theorem C2_upsert_last_write_wins_witness :
    mergeRow energyKey energyOverwrite [] ⟨1, 1, 1, 10, 20, 5, 3⟩ =
      [] ++ [⟨1, 1, 1, 10, 20, 5, 3⟩] :=
  C2_upsert_last_write_wins.2.2.1 [] ⟨1, 1, 1, 10, 20, 5, 3⟩ (by decide)

/-- Witness for C3 at a mart triple whose intensity row references a region
never registered. -/
theorem C3_integrity_guard_fail_fast_witness :
    ∃ tbl cols, cols ≠ [] ∧
      ((tbl = "energy_fact" ∧
         cols = energyBadCols (builtEnergy martsBad (registerDims martsBad dbEmpty))) ∨
       (tbl = "emissions_fact" ∧
         cols = emissionsBadCols (builtEmissions martsBad (registerDims martsBad dbEmpty))) ∨
       (tbl = "intensity_fact" ∧
         cols = intensityBadCols (builtIntensity martsBad (registerDims martsBad dbEmpty)))) ∧
      mainLoad martsBad dbEmpty = (dbEmpty, some (LoadError.nullsError tbl cols)) :=
  C3_integrity_guard_fail_fast martsBad dbEmpty (by decide)

/-- Witness for the amended C4 at the spec's example input. -/
theorem C4_amended_witness :
    carbonIntensityRatio 120 0 = none ∧
    "co2_per_mwh" ∈
      intensityBadCols (builtIntensity martsZero (registerDims martsZero dbEmpty)) ∧
    mainLoad martsZero dbEmpty = (dbEmpty, some (LoadError.nullsError "intensity_fact"
      (intensityBadCols (builtIntensity martsZero (registerDims martsZero dbEmpty))))) :=
  C4_amended_guard_rejects_undefined_ratio 120 martsZero dbEmpty (by decide) (by decide)
    ⟨iRowZero, by decide, by decide⟩

/-- Witness for C5: a candidate already registered and an empty pair list are
no-ops. -/
theorem C5_dim_registration_append_only_witness :
    upsert_dim_table ⟨[(1, "North")], 2⟩ ["North"] = ⟨[(1, "North")], 2⟩ ∧
    upsert_dim_time ⟨[(7, 2024, 1)], 8⟩ [] = ⟨[(7, 2024, 1)], 8⟩ :=
  ⟨(C5_dim_registration_append_only ⟨[(1, "North")], 2⟩ ⟨[(7, 2024, 1)], 8⟩
      ["North"] []).2.2.1 (by decide),
   (C5_dim_registration_append_only ⟨[(1, "North")], 2⟩ ⟨[(7, 2024, 1)], 8⟩
      ["North"] []).2.2.2.2.1 rfl⟩

/-- Witness for C6: an unregistered region maps to a missing region_id. -/
theorem C6_fact_row_builder_witness :
    (buildEnergyFact (fetch_dim_map ⟨[], 1⟩) (fun _ => some 1) (fun _ => some 1)
      eRowN).region_id = none :=
  (C6_fact_row_builder (fetch_dim_map ⟨[], 1⟩) (fun _ => some 1) (fun _ => some 1)
    (fun _ => some 1) eRowN mRowN iRowN).2.2.2.1 ⟨[], 1⟩ (by decide)

/-- Witness for C7 at a concrete successful load. -/
theorem C7_atomic_transaction_witness :
    mainLoad martsA dbEmpty = (mergedState martsA (registerDims martsA dbEmpty), none) :=
  (C7_atomic_transaction martsA dbEmpty).2 (by decide)

/-- Witness for C8: a load started without staging tables leaves none. -/
theorem C8_staging_transient_witness :
    (mainLoad martsA dbEmpty).1.stg_fact_energy = none ∧
    (mainLoad martsA dbEmpty).1.stg_fact_emissions = none ∧
    (mainLoad martsA dbEmpty).1.stg_fact_intensity = none :=
  (C8_staging_transient dbEmpty [] [] [] martsA).2.2.2 rfl rfl rfl

/-- Witness for C9 at a concrete built fact row. -/
theorem C9_time_ids_complete_witness :
    (buildEnergyFact (fetch_dim_map (registerDims martsA dbEmpty).dim_region)
      (fetch_dim_map (registerDims martsA dbEmpty).dim_energy_source)
      (fetch_time_map (registerDims martsA dbEmpty).dim_time) eRowN).time_id.isSome :=
  (C9_time_ids_complete martsA dbEmpty).1
    (buildEnergyFact (fetch_dim_map (registerDims martsA dbEmpty).dim_region)
      (fetch_dim_map (registerDims martsA dbEmpty).dim_energy_source)
      (fetch_time_map (registerDims martsA dbEmpty).dim_time) eRowN) (by decide)

/-- Witness for C10: two candidate lists with the same value set. -/
theorem C10_dim_registration_set_deterministic_witness :
    upsert_dim_table ⟨[], 1⟩ ["South", "North"] =
      upsert_dim_table ⟨[], 1⟩ ["North", "South", "North"] ∧
    List.Sorted (fun a b => strLe a b = true)
      (((upsert_dim_table ⟨[], 1⟩ ["South", "North"]).rows.drop
        (⟨[], 1⟩ : DimTable).rows.length).map Prod.snd) :=
  C10_dim_registration_set_deterministic ⟨[], 1⟩ ["South", "North"]
    ["North", "South", "North"] (by decide)
